import Mathlib

/-!
# TheChorus: the bounce-cycle controller `MovingMotor`

A shallow embedding of `src/uStepper_bounceTest/MovingMotor.cpp` (with the
declarations of `MovingMotor.h`) and theorems about it.

Modelling conventions.

* `float` fields, arguments and driver readings are rationals (no NaN, no
  infinities).  In the arrival tests and in the limits sent to the driver the
  floating-point arithmetic is idealised as exact arithmetic.  In the
  conversion of an angle difference to `position`, where truncation to an
  integer exposes the rounding, every operation is rounded as the hardware
  does it: IEEE 754 binary32 for `float`, binary64 for `double`, round to
  nearest, ties to even.
* `int` is `Int`, `uint32_t` is `Nat`; the only integer arithmetic in the class
  is `cycles++`, which runs under the guard `cycles < maxCycles` and so cannot
  overflow.  The cast `(int)` of a floating value is defined only when the
  truncated value fits the 32-bit `int`; where it does not, the call has no
  defined result (`none`).
* `abs` is the absolute value and the literal `0.5` is the rational 1/2.
* `stepperPtr` is a Boolean: `true` when a driver object is bound, `false`
  for `NULL`.
* The driver (`UstepperS32`) is not part of the repository.  The calls the
  controller makes on it that command something are recorded, in order, as a
  list of `StepperCall`; the two queries (`angleMoved`, `getMotorState`) are
  inputs of the operation that asks them.
* `Serial` output is diagnostic only and is left out.
* A blocking wait `while (stepperPtr->getMotorState()) delay(10);` consumes a
  finite script of driver answers; an operation whose wait is not released
  by the script does not return (`none`).
-/

namespace Chorus

/-- The commanding calls made on the bound `UstepperS32` driver. -/
inductive StepperCall where
  | setMaxVelocity (velocity : ℚ)
  | setMaxAcceleration (acceleration : ℚ)
  | enableClosedLoop
  | moveToAngle (angle : ℚ)
  | stop
  deriving DecidableEq

/-- The private data members of `class MovingMotor` (MovingMotor.h, 22-38). -/
structure MovingMotor where
  stepperPtr : Bool
  position : Int
  startAngle : ℚ
  endAngle : ℚ
  direction : ℚ
  speed : ℚ
  distance : ℚ
  cycles : Int
  maxCycles : Int
  cycleComplete : Bool
  isActive : Bool
  maxVelocity : Nat
  maxAcceleration : Nat
  upVelocityMultiplier : ℚ
  upAccelMultiplier : ℚ
  downVelocityMultiplier : ℚ
  downAccelMultiplier : ℚ
  deriving DecidableEq

/-- `STEPSPERREV` of MovingMotor.h. -/
def STEPSPERREV : ℚ := 200

/-- Rounding of a rational to the nearest integer, a tie going to the even
one. -/
def roundHalfEven (x : ℚ) : Int :=
  if x - ⌊x⌋ < 1 / 2 then ⌊x⌋
  else if 1 / 2 < x - ⌊x⌋ then ⌊x⌋ + 1
  else if ⌊x⌋ % 2 = 0 then ⌊x⌋ else ⌊x⌋ + 1

/-- The binary exponent that fixes the spacing of the floating-point values
around `x`: the integer `e` with `2 ^ e ≤ |x| < 2 ^ (e + 1)`, but never below
the least normal exponent `emin` (the subnormal range keeps the spacing of
`2 ^ emin`). -/
def floatExponent (emin : Int) (x : ℚ) : Int := max (Int.log 2 |x|) emin

/-- IEEE 754 round-to-nearest, ties-to-even, into a binary format with `prec`
significand bits and least normal exponent `emin`: `x` is rounded to the
nearest multiple of `2 ^ (e - (prec - 1))`, `e` being its `floatExponent`.
The exponent is not capped above: a value beyond the largest finite number of
the format stays a large rational.  In the one place this rounding is used
such a value cannot be cast to `int` either way. -/
def roundFloat (prec : Nat) (emin : Int) (x : ℚ) : ℚ :=
  if x = 0 then 0
  else roundHalfEven (x / 2 ^ (floatExponent emin x - (prec - 1)))
    * 2 ^ (floatExponent emin x - (prec - 1))

/-- Rounding to `float` (IEEE 754 binary32: 24 significand bits, least normal
exponent -126). -/
def binary32 (x : ℚ) : ℚ := roundFloat 24 (-126) x

/-- Rounding to `double` (IEEE 754 binary64: 53 significand bits, least normal
exponent -1022). -/
def binary64 (x : ℚ) : ℚ := roundFloat 53 (-1022) x

/-- The expression `angle * RES` after macro expansion,
`angle * (STEPSPERREV * 256)/360.0`: the `float` product of `angle` and 51200,
then the `double` quotient by 360. -/
def timesRES (angle : ℚ) : ℚ :=
  binary64 (binary32 (angle * (STEPSPERREV * 256)) / 360)

/-- Truncation toward zero. -/
def truncate (x : ℚ) : Int := Int.tdiv x.num (x.den : Int)

/-- The cast `(int)x` of a floating value into the 32-bit `int`: truncation
toward zero when the truncated value is representable, undefined (`none`)
otherwise. -/
def castInt (x : ℚ) : Option Int :=
  if -2 ^ 31 ≤ truncate x ∧ truncate x ≤ 2 ^ 31 - 1 then some (truncate x) else none

/-- The constructor `MovingMotor::MovingMotor` (MovingMotor.cpp, 12-32). -/
def construct (startPos : Int) (startDistance startSpeed : ℚ) (endPos : Int)
    (maxVel maxAccel : Nat) (maxBounces : Int)
    (upVelMult upAccMult downVelMult downAccMult : ℚ) : MovingMotor where
  position := startPos
  startAngle := startPos
  endAngle := endPos
  direction := 1
  speed := startSpeed
  distance := startDistance
  cycles := 0
  maxCycles := maxBounces
  cycleComplete := false
  isActive := false
  maxVelocity := maxVel
  maxAcceleration := maxAccel
  upVelocityMultiplier := upVelMult
  upAccelMultiplier := upAccMult
  downVelocityMultiplier := downVelMult
  downAccelMultiplier := downAccMult
  stepperPtr := false

/-- The loop `while (stepperPtr->getMotorState()) delay(10);` run against a
script of successive driver answers: `true` when an answer `false` releases
the loop, `false` when the script ends with the loop still waiting. -/
def waitWhileMoving : List Bool → Bool
  | [] => false
  | true :: rest => waitWhileMoving rest
  | false :: _ => true

namespace MovingMotor

/-- `MovingMotor::init` (34-76) called with a driver object. -/
def init (s : MovingMotor) (motorStates : List Bool) :
    Option (MovingMotor × List StepperCall) :=
  let s := { s with stepperPtr := true }
  if waitWhileMoving motorStates then
    some (s, [StepperCall.setMaxVelocity s.maxVelocity,
              StepperCall.setMaxAcceleration s.maxAcceleration,
              StepperCall.enableClosedLoop,
              StepperCall.moveToAngle s.startAngle])
  else none

/-- `MovingMotor::angleToPosition` (79-83): `(int)(angle * RES)`. -/
def angleToPosition (angle : ℚ) : Option Int := castInt (timesRES angle)

/-- Lines 100-143 of `update`: the arrival test for the current direction and
what it triggers. -/
def checkArrival (s : MovingMotor) (currentAngle : ℚ) :
    MovingMotor × List StepperCall :=
  if s.direction > 0 then
    if |currentAngle - s.endAngle| < 0.5 then
      ({ s with direction := -1 },
        [StepperCall.setMaxVelocity (s.maxVelocity * s.downVelocityMultiplier),
         StepperCall.setMaxAcceleration (s.maxAcceleration * s.downAccelMultiplier),
         StepperCall.enableClosedLoop,
         StepperCall.moveToAngle s.startAngle])
    else (s, [])
  else
    if |currentAngle - s.startAngle| < 0.5 then
      if s.cycles < s.maxCycles then
        ({ s with direction := 1, cycles := s.cycles + 1 },
          [StepperCall.setMaxVelocity (s.maxVelocity * s.upVelocityMultiplier),
           StepperCall.setMaxAcceleration (s.maxAcceleration * s.upAccelMultiplier),
           StepperCall.enableClosedLoop,
           StepperCall.moveToAngle s.endAngle])
      else
        ({ s with cycleComplete := true }, [StepperCall.stop])
    else (s, [])

/-- The target of the current direction, `targetAngle` of line 148:
`(direction > 0) ? endAngle : startAngle`. -/
def targetAngle (s : MovingMotor) : ℚ :=
  if s.direction > 0 then s.endAngle else s.startAngle

/-- The body of the conditional at lines 146-173 of `update`: profile of the
current direction, then the move toward its target. -/
def startMovement (s : MovingMotor) : List StepperCall :=
  (if s.direction > 0 then
      [StepperCall.setMaxVelocity (s.maxVelocity * s.upVelocityMultiplier),
       StepperCall.setMaxAcceleration (s.maxAcceleration * s.upAccelMultiplier)]
    else
      [StepperCall.setMaxVelocity (s.maxVelocity * s.downVelocityMultiplier),
       StepperCall.setMaxAcceleration (s.maxAcceleration * s.downAccelMultiplier)])
    ++ [StepperCall.enableClosedLoop, StepperCall.moveToAngle s.targetAngle]

/-- `MovingMotor::update` (86-178).  `currentAngle` is the driver's answer to
`angleMoved()` and `motorState` its answer to `getMotorState()`, should the
call ask for them. -/
def update (s : MovingMotor) (activate : Bool) (currentAngle : ℚ)
    (motorState : Bool) : MovingMotor × List StepperCall :=
  if s.stepperPtr = false then (s, [])
  else
    let s := { s with isActive := activate }
    if s.isActive = true ∧ s.cycleComplete = false then
      let r := checkArrival s currentAngle
      if r.1.cycleComplete = false ∧ motorState = false then
        (r.1, r.2 ++ startMovement r.1)
      else r
    else if s.isActive = false ∧ s.stepperPtr = true then
      (s, [StepperCall.stop])
    else (s, [])

/-- `MovingMotor::outputToMotor` (181-197): status report only. -/
def outputToMotor (s : MovingMotor) : MovingMotor × List StepperCall := (s, [])

/-- `MovingMotor::setStartPosition` (200-214). -/
def setStartPosition (s : MovingMotor) (currentAngle : ℚ) :
    MovingMotor × List StepperCall :=
  if s.stepperPtr = false then (s, [])
  else ({ s with startAngle := currentAngle, position := 0 },
        [StepperCall.enableClosedLoop])

/-- `MovingMotor::setEndPosition` (217-228). -/
def setEndPosition (s : MovingMotor) (currentAngle : ℚ) :
    MovingMotor × List StepperCall :=
  if s.stepperPtr = false then (s, [])
  else ({ s with endAngle := currentAngle }, [StepperCall.enableClosedLoop])

/-- `MovingMotor::goToStart` (231-251). -/
def goToStart (s : MovingMotor) (motorStates : List Bool) :
    Option (MovingMotor × List StepperCall) :=
  if s.stepperPtr = false then some (s, [])
  else if waitWhileMoving motorStates then
    some ({ s with position := 0 },
          [StepperCall.enableClosedLoop, StepperCall.moveToAngle s.startAngle])
  else none

/-- `MovingMotor::goToEnd` (254-274).  The argument of `angleToPosition` is
the `float` difference `endAngle - startAngle`. -/
def goToEnd (s : MovingMotor) (motorStates : List Bool) :
    Option (MovingMotor × List StepperCall) :=
  if s.stepperPtr = false then some (s, [])
  else
    match angleToPosition (binary32 (s.endAngle - s.startAngle)) with
    | none => none
    | some newPosition =>
        if waitWhileMoving motorStates then
          some ({ s with position := newPosition },
                [StepperCall.enableClosedLoop, StepperCall.moveToAngle s.endAngle])
        else none

/-- `MovingMotor::reset` (277-293). -/
def reset (s : MovingMotor) (motorStates : List Bool) :
    Option (MovingMotor × List StepperCall) :=
  if s.stepperPtr = false then some (s, [])
  else
    let s := { s with direction := 1, cycles := 0, cycleComplete := false }
    match goToStart s motorStates with
    | some (t, calls) =>
        some (t, [StepperCall.setMaxVelocity s.maxVelocity,
                  StepperCall.setMaxAcceleration s.maxAcceleration] ++ calls)
    | none => none

/-- `MovingMotor::setMaxVelocity` (296-304). -/
def setMaxVelocity (s : MovingMotor) (velocity : Nat) :
    MovingMotor × List StepperCall :=
  if s.stepperPtr = false then (s, [])
  else ({ s with maxVelocity := velocity }, [StepperCall.setMaxVelocity velocity])

/-- `MovingMotor::setMaxAcceleration` (307-315). -/
def setMaxAcceleration (s : MovingMotor) (acceleration : Nat) :
    MovingMotor × List StepperCall :=
  if s.stepperPtr = false then (s, [])
  else ({ s with maxAcceleration := acceleration },
        [StepperCall.setMaxAcceleration acceleration])

/-- `MovingMotor::setMaxCycles` (318-324). -/
def setMaxCycles (s : MovingMotor) (numCycles : Int) : MovingMotor :=
  if numCycles > 0 then { s with maxCycles := numCycles } else s

/-- `MovingMotor::setUpVelocityMultiplier` (327-333). -/
def setUpVelocityMultiplier (s : MovingMotor) (multiplier : ℚ) : MovingMotor :=
  if multiplier > 0 then { s with upVelocityMultiplier := multiplier } else s

/-- `MovingMotor::setUpAccelerationMultiplier` (335-341). -/
def setUpAccelerationMultiplier (s : MovingMotor) (multiplier : ℚ) : MovingMotor :=
  if multiplier > 0 then { s with upAccelMultiplier := multiplier } else s

/-- `MovingMotor::setDownVelocityMultiplier` (343-349). -/
def setDownVelocityMultiplier (s : MovingMotor) (multiplier : ℚ) : MovingMotor :=
  if multiplier > 0 then { s with downVelocityMultiplier := multiplier } else s

/-- `MovingMotor::setDownAccelerationMultiplier` (351-357). -/
def setDownAccelerationMultiplier (s : MovingMotor) (multiplier : ℚ) : MovingMotor :=
  if multiplier > 0 then { s with downAccelMultiplier := multiplier } else s

/-- `MovingMotor::getCurrentAngle` (384-387). -/
def getCurrentAngle (s : MovingMotor) (currentAngle : ℚ) : ℚ :=
  if s.stepperPtr = false then 0.0 else currentAngle

end MovingMotor

/-- One call of a public member function that changes or commands something,
with its arguments and the driver answers it consumes. -/
inductive Op where
  | init (motorStates : List Bool)
  | update (activate : Bool) (currentAngle : ℚ) (motorState : Bool)
  | outputToMotor
  | setStartPosition (currentAngle : ℚ)
  | setEndPosition (currentAngle : ℚ)
  | goToStart (motorStates : List Bool)
  | goToEnd (motorStates : List Bool)
  | reset (motorStates : List Bool)
  | setMaxVelocity (velocity : Nat)
  | setMaxAcceleration (acceleration : Nat)
  | setMaxCycles (numCycles : Int)
  | setUpVelocityMultiplier (multiplier : ℚ)
  | setUpAccelerationMultiplier (multiplier : ℚ)
  | setDownVelocityMultiplier (multiplier : ℚ)
  | setDownAccelerationMultiplier (multiplier : ℚ)

/-- The effect of one public call: the new controller state and the driver
calls made, or `none` when the call does not return or has no defined
result. -/
def Op.apply (s : MovingMotor) : Op → Option (MovingMotor × List StepperCall)
  | .init motorStates => s.init motorStates
  | .update activate currentAngle motorState =>
      some (s.update activate currentAngle motorState)
  | .outputToMotor => some s.outputToMotor
  | .setStartPosition currentAngle => some (s.setStartPosition currentAngle)
  | .setEndPosition currentAngle => some (s.setEndPosition currentAngle)
  | .goToStart motorStates => s.goToStart motorStates
  | .goToEnd motorStates => s.goToEnd motorStates
  | .reset motorStates => s.reset motorStates
  | .setMaxVelocity velocity => some (s.setMaxVelocity velocity)
  | .setMaxAcceleration acceleration => some (s.setMaxAcceleration acceleration)
  | .setMaxCycles numCycles => some (s.setMaxCycles numCycles, [])
  | .setUpVelocityMultiplier m => some (s.setUpVelocityMultiplier m, [])
  | .setUpAccelerationMultiplier m => some (s.setUpAccelerationMultiplier m, [])
  | .setDownVelocityMultiplier m => some (s.setDownVelocityMultiplier m, [])
  | .setDownAccelerationMultiplier m => some (s.setDownAccelerationMultiplier m, [])

/-- The controller state after a sequence of public calls, each of which
returns. -/
def runOps (s : MovingMotor) : List Op → Option MovingMotor
  | [] => some s
  | op :: rest =>
      match op.apply s with
      | some (t, _) => runOps t rest
      | none => none

/-- States the caller can observe: those produced from a constructed
controller by a sequence of public calls. -/
def Reachable (t : MovingMotor) : Prop :=
  ∃ (startPos : Int) (startDistance startSpeed : ℚ) (endPos : Int)
    (maxVel maxAccel : Nat) (maxBounces : Int)
    (upVelMult upAccMult downVelMult downAccMult : ℚ) (ops : List Op),
    runOps (construct startPos startDistance startSpeed endPos maxVel maxAccel
      maxBounces upVelMult upAccMult downVelMult downAccMult) ops = some t

/-- A sequence of public calls from `s` respects the cycle ceiling when every
`setMaxCycles(numCycles)` in it is made with `numCycles ≤ 0` (a rejected
value) or with `numCycles` at least the cycle count at the time of the
call. -/
def respectsCeiling (s : MovingMotor) : List Op → Bool
  | [] => true
  | op :: rest =>
      (match op with
        | Op.setMaxCycles numCycles => decide (numCycles ≤ 0 ∨ s.cycles ≤ numCycles)
        | _ => true) &&
      (match op.apply s with
        | some (t, _) => respectsCeiling t rest
        | none => true)

/-- The driver angles of the bounce scenario: `endAngle` on even ticks,
`startAngle` on odd ticks. -/
def bounceAngle (s : MovingMotor) (k : Nat) : ℚ :=
  if k % 2 = 0 then s.endAngle else s.startAngle

/-- The controller after `n` further calls `update(true)`, the `k`-th call
overall reading the angle `bounceAngle s k` and the motor state
`motorState k`. -/
def bounceTicks (motorState : Nat → Bool) : Nat → Nat → MovingMotor → MovingMotor
  | 0, _, s => s
  | n + 1, k, s =>
      bounceTicks motorState n (k + 1)
        (s.update true (bounceAngle s k) (motorState k)).1


/-- The motion commands among the driver calls: `moveToAngle` and `stop`. -/
def StepperCall.isMotion : StepperCall → Bool
  | .moveToAngle _ => true
  | .stop => true
  | _ => false

/-- The number of motion commands in a list of driver calls. -/
def motionCount (calls : List StepperCall) : Nat :=
  (calls.filter StepperCall.isMotion).length

/-- The controller after a sequence of `update(true)` calls, each given as the
angle and the motor state the driver reports to it. -/
def runTicks (s : MovingMotor) : List (ℚ × Bool) → MovingMotor
  | [] => s
  | (currentAngle, motorState) :: rest =>
      runTicks (s.update true currentAngle motorState).1 rest

/-- An `update(true)` call on `s` reading `currentAngle` detects an arrival at
the start angle: the arrival test is reached (bound, not complete), the
direction is toward start and the angle is within 0.5 of `startAngle`. -/
def detectsStartArrival (s : MovingMotor) (currentAngle : ℚ) : Bool :=
  decide (s.stepperPtr = true ∧ s.cycleComplete = false ∧ ¬ 0 < s.direction ∧
    |currentAngle - s.startAngle| < 0.5)

/-- An `update(true)` call on `s` reading `currentAngle` detects an arrival at
the end angle: the arrival test is reached (bound, not complete), the
direction is toward end and the angle is within 0.5 of `endAngle`. -/
def detectsEndArrival (s : MovingMotor) (currentAngle : ℚ) : Bool :=
  decide (s.stepperPtr = true ∧ s.cycleComplete = false ∧ 0 < s.direction ∧
    |currentAngle - s.endAngle| < 0.5)

/-- The number of ticks of a sequence of `update(true)` calls from `s` that
detect an arrival at the start angle. -/
def countStartArrivals (s : MovingMotor) : List (ℚ × Bool) → Nat
  | [] => 0
  | (currentAngle, motorState) :: rest =>
      (if detectsStartArrival s currentAngle = true then 1 else 0)
        + countStartArrivals (s.update true currentAngle motorState).1 rest

/-- The number of ticks of a sequence of `update(true)` calls from `s` that
detect an arrival at the end angle. -/
def countEndArrivals (s : MovingMotor) : List (ℚ × Bool) → Nat
  | [] => 0
  | (currentAngle, motorState) :: rest =>
      (if detectsEndArrival s currentAngle = true then 1 else 0)
        + countEndArrivals (s.update true currentAngle motorState).1 rest

/-- The number of `moveToAngle` calls with the given target in a list of
driver calls. -/
def movesTo (target : ℚ) : List StepperCall → Nat
  | [] => 0
  | .moveToAngle angle :: rest => (if angle = target then 1 else 0) + movesTo target rest
  | _ :: rest => movesTo target rest

/-- The driver calls made, in order, by a sequence of `update(true)` calls. -/
def runCalls (s : MovingMotor) : List (ℚ × Bool) → List StepperCall
  | [] => []
  | (currentAngle, motorState) :: rest =>
      (s.update true currentAngle motorState).2
        ++ runCalls (s.update true currentAngle motorState).1 rest

/-- An `update(true)` call on `s` runs its restart branch (146-166) heading for
the end angle: the controller is bound and not complete, the driver answers
that it is not moving, and after the arrival test the run is still not
complete and the direction is toward end. -/
def restartsTowardEnd (s : MovingMotor) (currentAngle : ℚ) (motorState : Bool) : Bool :=
  decide (s.stepperPtr = true ∧ s.cycleComplete = false ∧ motorState = false ∧
    (s.update true currentAngle motorState).1.cycleComplete = false ∧
    0 < (s.update true currentAngle motorState).1.direction)

/-- The number of ticks of a sequence of `update(true)` calls from `s` whose
restart branch runs heading for the end angle. -/
def countRestartsTowardEnd (s : MovingMotor) : List (ℚ × Bool) → Nat
  | [] => 0
  | (currentAngle, motorState) :: rest =>
      (if restartsTowardEnd s currentAngle motorState = true then 1 else 0)
        + countRestartsTowardEnd (s.update true currentAngle motorState).1 rest

/-- The end arrivals not yet answered by a start arrival: 1 while the
controller heads for the start angle, 0 while it heads for the end angle. -/
def pendingReturn (s : MovingMotor) : Nat := if 0 < s.direction then 0 else 1

/-- The ticks of the spec scenario: the angles 90, 0, 90, 0, 90, 0 read while
the driver reports motion. -/
def demoTicks : List (ℚ × Bool) :=
  [(90, true), (0, true), (90, true), (0, true), (90, true), (0, true)]

/-- The spec scenario as the driver would normally answer it: a first tick at
the start angle with the driver at rest, then the angles 90, 0, 90, 0, 90, 0
read while the driver reports motion. -/
def demoRestTicks : List (ℚ × Bool) :=
  [(0, false), (90, true), (0, true), (90, true), (0, true), (90, true), (0, true)]

/-- The controller of the spec scenario: constructed with start position 0,
end position 90, `maxBounces = 2` and the default limits and multipliers of
MovingMotor.h, then bound to a driver. -/
def demoMotor : MovingMotor :=
  { construct 0 0 0 90 500 2000 2 3 2 1.5 1 with stepperPtr := true }

/-- The scenario controller on its way back to the start angle, no cycle
counted yet. -/
def demoReturning : MovingMotor := { demoMotor with direction := -1 }

/-- The scenario controller on its way back to the start angle with
`maxCycles` cycles counted. -/
def demoLastReturn : MovingMotor := { demoMotor with direction := -1, cycles := 2 }

/-- The scenario controller in mid-run: active, on its way back, one cycle
counted. -/
def demoMidRun : MovingMotor :=
  { demoMotor with direction := -1, cycles := 1, isActive := true }

/-- The scenario controller after its run has completed. -/
def demoDone : MovingMotor :=
  { demoMotor with direction := -1, cycles := 2, isActive := true, cycleComplete := true }

/-- The calls of the spec scenario on a constructed controller: `init` (the
driver reports motion once, then rest), then `update(true)` reading the angles
90, 0, 90, 0, 90, 0 while the driver reports motion. -/
def demoOps : List Op :=
  [Op.init [true, false], Op.update true 90 true, Op.update true 0 true,
   Op.update true 90 true, Op.update true 0 true, Op.update true 90 true,
   Op.update true 0 true]

/-- Four calls that respect the cycle ceiling: `init`, one full bounce, then
`setMaxCycles(1)` at cycle count 1. -/
def demoLowerOps : List Op :=
  [Op.init [false], Op.update true 90 true, Op.update true 0 true, Op.setMaxCycles 1]

/-- Six calls that lower the ceiling below the count: `init`, two full
bounces, then `setMaxCycles(1)` at cycle count 2. -/
def demoBreakOps : List Op :=
  [Op.init [false], Op.update true 90 true, Op.update true 0 true,
   Op.update true 90 true, Op.update true 0 true, Op.setMaxCycles 1]

/-- The scenario controller after capturing as end angle the `float` nearest
to 1.8. -/
def demoCaptured : MovingMotor := { demoMotor with endAngle := 7549747 / 4194304 }

/-- The scenario controller as constructed, before `init`: no driver bound. -/
def demoUnbound : MovingMotor := construct 0 0 0 90 500 2000 2 3 2 1.5 1

open MovingMotor

/-! ## Case lemmas for `checkArrival` and `update` -/

theorem checkArrival_at_end (s : MovingMotor) (a : ℚ) (hd : 0 < s.direction)
    (ha : |a - s.endAngle| < 0.5) :
    s.checkArrival a =
      ({ s with direction := -1 },
        [StepperCall.setMaxVelocity (s.maxVelocity * s.downVelocityMultiplier),
         StepperCall.setMaxAcceleration (s.maxAcceleration * s.downAccelMultiplier),
         StepperCall.enableClosedLoop,
         StepperCall.moveToAngle s.startAngle]) := by
  unfold checkArrival
  rw [if_pos hd, if_pos ha]

theorem checkArrival_off_end (s : MovingMotor) (a : ℚ) (hd : 0 < s.direction)
    (ha : ¬ |a - s.endAngle| < 0.5) : s.checkArrival a = (s, []) := by
  unfold checkArrival
  rw [if_pos hd, if_neg ha]

theorem checkArrival_at_start_more (s : MovingMotor) (a : ℚ) (hd : ¬ 0 < s.direction)
    (ha : |a - s.startAngle| < 0.5) (hn : s.cycles < s.maxCycles) :
    s.checkArrival a =
      ({ s with direction := 1, cycles := s.cycles + 1 },
        [StepperCall.setMaxVelocity (s.maxVelocity * s.upVelocityMultiplier),
         StepperCall.setMaxAcceleration (s.maxAcceleration * s.upAccelMultiplier),
         StepperCall.enableClosedLoop,
         StepperCall.moveToAngle s.endAngle]) := by
  unfold checkArrival
  rw [if_neg hd, if_pos ha, if_pos hn]

theorem checkArrival_at_start_done (s : MovingMotor) (a : ℚ) (hd : ¬ 0 < s.direction)
    (ha : |a - s.startAngle| < 0.5) (hn : ¬ s.cycles < s.maxCycles) :
    s.checkArrival a = ({ s with cycleComplete := true }, [StepperCall.stop]) := by
  unfold checkArrival
  rw [if_neg hd, if_pos ha, if_neg hn]

theorem checkArrival_off_start (s : MovingMotor) (a : ℚ) (hd : ¬ 0 < s.direction)
    (ha : ¬ |a - s.startAngle| < 0.5) : s.checkArrival a = (s, []) := by
  unfold checkArrival
  rw [if_neg hd, if_neg ha]

theorem update_unbound (s : MovingMotor) (activate : Bool) (a : ℚ) (m : Bool)
    (hb : s.stepperPtr = false) : s.update activate a m = (s, []) := by
  unfold update
  rw [if_pos hb]

theorem update_inactive (s : MovingMotor) (a : ℚ) (m : Bool)
    (hb : s.stepperPtr = true) :
    s.update false a m = ({ s with isActive := false }, [StepperCall.stop]) := by
  unfold update
  simp [hb]

theorem update_complete (s : MovingMotor) (a : ℚ) (m : Bool)
    (hb : s.stepperPtr = true) (hc : s.cycleComplete = true) :
    s.update true a m = ({ s with isActive := true }, []) := by
  unfold update
  simp [hb, hc]

theorem update_running (s : MovingMotor) (a : ℚ) (m : Bool)
    (hb : s.stepperPtr = true) (hc : s.cycleComplete = false) :
    s.update true a m =
      if (checkArrival { s with isActive := true } a).1.cycleComplete = false ∧ m = false
      then ((checkArrival { s with isActive := true } a).1,
            (checkArrival { s with isActive := true } a).2
              ++ startMovement (checkArrival { s with isActive := true } a).1)
      else checkArrival { s with isActive := true } a := by
  unfold update
  simp [hb, hc]


/-- The state part of `update` in one formula. -/
theorem update_state (s : MovingMotor) (activate : Bool) (a : ℚ) (m : Bool) :
    (s.update activate a m).1 =
      if s.stepperPtr = false then s
      else if activate = true ∧ s.cycleComplete = false then
        (checkArrival { s with isActive := true } a).1
      else { s with isActive := activate } := by
  by_cases hb : s.stepperPtr = false
  · rw [update_unbound s activate a m hb, if_pos hb]
  · have hb1 : s.stepperPtr = true := by simpa using hb
    rw [if_neg hb]
    cases activate
    · rw [update_inactive s a m hb1]; simp
    · by_cases hc : s.cycleComplete = false
      · have hrun : true = true ∧ s.cycleComplete = false := ⟨rfl, hc⟩
        rw [if_pos hrun, update_running s a m hb1 hc]
        split <;> rfl
      · have hc1 : s.cycleComplete = true := by simpa using hc
        rw [update_complete s a m hb1 hc1]; simp [hc1]

/-- What `checkArrival` does to `cycles`. -/
theorem checkArrival_cycles (s : MovingMotor) (a : ℚ) :
    (s.checkArrival a).1.cycles =
      if s.direction ≤ 0 ∧ |a - s.startAngle| < 0.5 ∧ s.cycles < s.maxCycles
      then s.cycles + 1 else s.cycles := by
  by_cases hd : 0 < s.direction
  · rw [if_neg (fun h => absurd hd (not_lt.mpr h.1))]
    by_cases ha : |a - s.endAngle| < 0.5
    · rw [checkArrival_at_end s a hd ha]
    · rw [checkArrival_off_end s a hd ha]
  · by_cases ha : |a - s.startAngle| < 0.5
    · by_cases hn : s.cycles < s.maxCycles
      · rw [checkArrival_at_start_more s a hd ha hn, if_pos ⟨not_lt.mp hd, ha, hn⟩]
      · rw [checkArrival_at_start_done s a hd ha hn, if_neg (fun h => hn h.2.2)]
    · rw [checkArrival_off_start s a hd ha, if_neg (fun h => ha h.2.1)]

/-- What `checkArrival` does to `cycleComplete`. -/
theorem checkArrival_cycleComplete (s : MovingMotor) (a : ℚ) :
    (s.checkArrival a).1.cycleComplete =
      if s.direction ≤ 0 ∧ |a - s.startAngle| < 0.5 ∧ ¬ s.cycles < s.maxCycles
      then true else s.cycleComplete := by
  by_cases hd : 0 < s.direction
  · rw [if_neg (fun h => absurd hd (not_lt.mpr h.1))]
    by_cases ha : |a - s.endAngle| < 0.5
    · rw [checkArrival_at_end s a hd ha]
    · rw [checkArrival_off_end s a hd ha]
  · by_cases ha : |a - s.startAngle| < 0.5
    · by_cases hn : s.cycles < s.maxCycles
      · rw [checkArrival_at_start_more s a hd ha hn, if_neg (fun h => h.2.2 hn)]
      · rw [checkArrival_at_start_done s a hd ha hn, if_pos ⟨not_lt.mp hd, ha, hn⟩]
    · rw [checkArrival_off_start s a hd ha, if_neg (fun h => ha h.2.1)]

/-- What `checkArrival` does to `direction`. -/
theorem checkArrival_direction (s : MovingMotor) (a : ℚ) :
    (s.checkArrival a).1.direction =
      if 0 < s.direction then (if |a - s.endAngle| < 0.5 then -1 else s.direction)
      else if |a - s.startAngle| < 0.5 ∧ s.cycles < s.maxCycles then 1
      else s.direction := by
  by_cases hd : 0 < s.direction
  · rw [if_pos hd]
    by_cases ha : |a - s.endAngle| < 0.5
    · rw [checkArrival_at_end s a hd ha, if_pos ha]
    · rw [checkArrival_off_end s a hd ha, if_neg ha]
  · rw [if_neg hd]
    by_cases ha : |a - s.startAngle| < 0.5
    · by_cases hn : s.cycles < s.maxCycles
      · rw [checkArrival_at_start_more s a hd ha hn, if_pos ⟨ha, hn⟩]
      · rw [checkArrival_at_start_done s a hd ha hn, if_neg (fun h => hn h.2)]
    · rw [checkArrival_off_start s a hd ha, if_neg (fun h => ha h.1)]

/-- Calls other than `update` and `reset` keep the cycle count, the direction
and the completion flag. -/
theorem apply_frame (s t : MovingMotor) (op : Op) (calls : List StepperCall)
    (hu : ∀ activate a m, op ≠ Op.update activate a m)
    (hr : ∀ motorStates, op ≠ Op.reset motorStates)
    (h : op.apply s = some (t, calls)) :
    t.cycles = s.cycles ∧ t.direction = s.direction ∧
      t.cycleComplete = s.cycleComplete := by
  cases op with
  | update activate a m => exact absurd rfl (hu activate a m)
  | reset motorStates => exact absurd rfl (hr motorStates)
  | init motorStates =>
      simp only [Op.apply, init] at h
      split at h
      · cases h; exact ⟨rfl, rfl, rfl⟩
      · cases h
  | goToStart motorStates =>
      simp only [Op.apply, goToStart] at h
      split at h
      · cases h; exact ⟨rfl, rfl, rfl⟩
      · split at h
        · cases h; exact ⟨rfl, rfl, rfl⟩
        · cases h
  | goToEnd motorStates =>
      simp only [Op.apply, goToEnd] at h
      split at h
      · cases h; exact ⟨rfl, rfl, rfl⟩
      · split at h
        · cases h
        · split at h
          · cases h; exact ⟨rfl, rfl, rfl⟩
          · cases h
  | outputToMotor => cases h; exact ⟨rfl, rfl, rfl⟩
  | setStartPosition a =>
      simp only [Op.apply, setStartPosition] at h
      split at h <;> (cases h; exact ⟨rfl, rfl, rfl⟩)
  | setEndPosition a =>
      simp only [Op.apply, setEndPosition] at h
      split at h <;> (cases h; exact ⟨rfl, rfl, rfl⟩)
  | setMaxVelocity v =>
      simp only [Op.apply, MovingMotor.setMaxVelocity] at h
      split at h <;> (cases h; exact ⟨rfl, rfl, rfl⟩)
  | setMaxAcceleration v =>
      simp only [Op.apply, MovingMotor.setMaxAcceleration] at h
      split at h <;> (cases h; exact ⟨rfl, rfl, rfl⟩)
  | setMaxCycles n =>
      simp only [Op.apply, MovingMotor.setMaxCycles] at h
      split at h <;> (cases h; exact ⟨rfl, rfl, rfl⟩)
  | setUpVelocityMultiplier x =>
      simp only [Op.apply, MovingMotor.setUpVelocityMultiplier] at h
      split at h <;> (cases h; exact ⟨rfl, rfl, rfl⟩)
  | setUpAccelerationMultiplier x =>
      simp only [Op.apply, MovingMotor.setUpAccelerationMultiplier] at h
      split at h <;> (cases h; exact ⟨rfl, rfl, rfl⟩)
  | setDownVelocityMultiplier x =>
      simp only [Op.apply, MovingMotor.setDownVelocityMultiplier] at h
      split at h <;> (cases h; exact ⟨rfl, rfl, rfl⟩)
  | setDownAccelerationMultiplier x =>
      simp only [Op.apply, MovingMotor.setDownAccelerationMultiplier] at h
      split at h <;> (cases h; exact ⟨rfl, rfl, rfl⟩)

/-- What `update` does to `cycles`. -/
theorem update_cycles (s : MovingMotor) (activate : Bool) (a : ℚ) (m : Bool) :
    (s.update activate a m).1.cycles =
      if s.stepperPtr = true ∧ activate = true ∧ s.cycleComplete = false ∧
          s.direction ≤ 0 ∧ |a - s.startAngle| < 0.5 ∧ s.cycles < s.maxCycles
      then s.cycles + 1 else s.cycles := by
  rw [update_state]
  by_cases hb : s.stepperPtr = false
  · rw [if_pos hb, if_neg (fun h => by simp [hb] at h)]
  · rw [if_neg hb]
    have hb1 : s.stepperPtr = true := by simpa using hb
    by_cases hrun : activate = true ∧ s.cycleComplete = false
    · rw [if_pos hrun, checkArrival_cycles]
      by_cases hx : s.direction ≤ 0 ∧ |a - s.startAngle| < 0.5 ∧ s.cycles < s.maxCycles
      · rw [if_pos hx, if_pos ⟨hb1, hrun.1, hrun.2, hx⟩]
      · rw [if_neg hx, if_neg (fun h => hx h.2.2.2)]
    · rw [if_neg hrun, if_neg (fun h => hrun ⟨h.2.1, h.2.2.1⟩)]

/-- What `update` does to `cycleComplete`. -/
theorem update_cycleComplete (s : MovingMotor) (activate : Bool) (a : ℚ) (m : Bool) :
    (s.update activate a m).1.cycleComplete =
      if s.stepperPtr = true ∧ activate = true ∧ s.cycleComplete = false ∧
          s.direction ≤ 0 ∧ |a - s.startAngle| < 0.5 ∧ ¬ s.cycles < s.maxCycles
      then true else s.cycleComplete := by
  rw [update_state]
  by_cases hb : s.stepperPtr = false
  · rw [if_pos hb, if_neg (fun h => by simp [hb] at h)]
  · rw [if_neg hb]
    have hb1 : s.stepperPtr = true := by simpa using hb
    by_cases hrun : activate = true ∧ s.cycleComplete = false
    · rw [if_pos hrun, checkArrival_cycleComplete]
      by_cases hx : s.direction ≤ 0 ∧ |a - s.startAngle| < 0.5 ∧ ¬ s.cycles < s.maxCycles
      · rw [if_pos hx, if_pos ⟨hb1, hrun.1, hrun.2, hx⟩]
      · rw [if_neg hx, if_neg (fun h => hx h.2.2.2)]
    · rw [if_neg hrun, if_neg (fun h => hrun ⟨h.2.1, h.2.2.1⟩)]

/-- What `update` does to `direction`. -/
theorem update_direction (s : MovingMotor) (activate : Bool) (a : ℚ) (m : Bool) :
    (s.update activate a m).1.direction =
      if s.stepperPtr = true ∧ activate = true ∧ s.cycleComplete = false then
        (if 0 < s.direction then (if |a - s.endAngle| < 0.5 then -1 else s.direction)
         else if |a - s.startAngle| < 0.5 ∧ s.cycles < s.maxCycles then 1
         else s.direction)
      else s.direction := by
  rw [update_state]
  by_cases hb : s.stepperPtr = false
  · rw [if_pos hb, if_neg (fun h => by simp [hb] at h)]
  · rw [if_neg hb]
    have hb1 : s.stepperPtr = true := by simpa using hb
    by_cases hrun : activate = true ∧ s.cycleComplete = false
    · have hall : s.stepperPtr = true ∧ activate = true ∧ s.cycleComplete = false :=
        ⟨hb1, hrun⟩
      rw [if_pos hrun, if_pos hall, checkArrival_direction]
    · rw [if_neg hrun, if_neg (fun h => hrun h.2)]

/-- The completing tick: back at the start angle with no cycle left to
count. -/
theorem update_at_start_done (s : MovingMotor) (a : ℚ) (m : Bool)
    (hb : s.stepperPtr = true) (hc : s.cycleComplete = false)
    (hd : ¬ 0 < s.direction) (ha : |a - s.startAngle| < 0.5)
    (hn : ¬ s.cycles < s.maxCycles) :
    s.update true a m
      = ({ s with isActive := true, cycleComplete := true }, [StepperCall.stop]) := by
  rw [update_running s a m hb hc,
    checkArrival_at_start_done { s with isActive := true } a hd ha hn]
  simp

/-- What a returning `reset` leaves in the cycle bookkeeping: either the
controller is unbound and untouched, or the bookkeeping is cleared. -/
theorem reset_state (s t : MovingMotor) (motorStates : List Bool)
    (calls : List StepperCall) (h : s.reset motorStates = some (t, calls)) :
    (s.stepperPtr = false ∧ t = s) ∨
    (t.direction = 1 ∧ t.cycles = 0 ∧ t.cycleComplete = false ∧
      t.maxCycles = s.maxCycles) := by
  unfold reset at h
  split at h
  · cases h; exact Or.inl ⟨by assumption, rfl⟩
  · unfold goToStart at h
    simp only at h
    split at h
    · rename_i heq
      split at heq
      · cases heq; cases h; exact Or.inr ⟨rfl, rfl, rfl, rfl⟩
      · split at heq
        · cases heq; cases h; exact Or.inr ⟨rfl, rfl, rfl, rfl⟩
        · cases heq
    · cases h

/-- Induction along a sequence of returning public calls. -/
theorem runOps_induction (P : MovingMotor → Prop)
    (hstep : ∀ (s t : MovingMotor) (op : Op) (calls : List StepperCall),
      P s → op.apply s = some (t, calls) → P t) :
    ∀ (ops : List Op) (s t : MovingMotor), P s → runOps s ops = some t → P t := by
  intro ops
  induction ops with
  | nil =>
      intro s t hs h
      simp only [runOps, Option.some.injEq] at h
      rw [← h]; exact hs
  | cons op rest ih =>
      intro s t hs h
      simp only [runOps] at h
      split at h
      · rename_i u calls heq
        exact ih u t (hstep s u op calls hs heq) h
      · cases h

/-- One public call keeps: `direction` is 1 or -1, and -1 when the run is
complete. -/
theorem direction_inv_step (s t : MovingMotor) (op : Op) (calls : List StepperCall)
    (hs : (s.direction = 1 ∨ s.direction = -1) ∧
      (s.cycleComplete = true → s.direction = -1))
    (h : op.apply s = some (t, calls)) :
    (t.direction = 1 ∨ t.direction = -1) ∧
      (t.cycleComplete = true → t.direction = -1) := by
  by_cases hu : ∀ activate a m, op ≠ Op.update activate a m
  · by_cases hr : ∀ motorStates, op ≠ Op.reset motorStates
    · obtain ⟨-, h2, h3⟩ := apply_frame s t op calls hu hr h
      rw [h2, h3]; exact hs
    · push_neg at hr
      obtain ⟨motorStates, rfl⟩ := hr
      rcases reset_state s t motorStates calls h with ⟨-, rfl⟩ | ⟨h1, -, h3, -⟩
      · exact hs
      · exact ⟨Or.inl h1, fun hc => by rw [h3] at hc; cases hc⟩
  · push_neg at hu
    obtain ⟨activate, a, m, rfl⟩ := hu
    simp only [Op.apply, Option.some.injEq] at h
    have ht : t = (s.update activate a m).1 := by rw [h]
    rw [ht, update_direction, update_cycleComplete]
    by_cases hall : s.stepperPtr = true ∧ activate = true ∧ s.cycleComplete = false
    · simp only [if_pos hall]
      by_cases hd : 0 < s.direction
      · have hx : ¬ (s.stepperPtr = true ∧ activate = true ∧ s.cycleComplete = false ∧
            s.direction ≤ 0 ∧ |a - s.startAngle| < 0.5 ∧ ¬ s.cycles < s.maxCycles) :=
          fun hx => absurd hd (not_lt.mpr hx.2.2.2.1)
        simp only [if_pos hd, if_neg hx]
        refine ⟨?_, fun hc => by rw [hall.2.2] at hc; cases hc⟩
        by_cases ha : |a - s.endAngle| < 0.5
        · simp only [if_pos ha]; exact Or.inr trivial
        · simp only [if_neg ha]; exact hs.1
      · have hneg : s.direction = -1 := by
          rcases hs.1 with h1 | h1
          · rw [h1] at hd; norm_num at hd
          · exact h1
        simp only [if_neg hd]
        by_cases h1 : |a - s.startAngle| < 0.5 ∧ s.cycles < s.maxCycles
        · have hx : ¬ (s.stepperPtr = true ∧ activate = true ∧ s.cycleComplete = false ∧
              s.direction ≤ 0 ∧ |a - s.startAngle| < 0.5 ∧ ¬ s.cycles < s.maxCycles) :=
            fun hx => hx.2.2.2.2.2 h1.2
          simp only [if_pos h1, if_neg hx]
          exact ⟨Or.inl trivial, fun hc => by rw [hall.2.2] at hc; cases hc⟩
        · simp only [if_neg h1]
          exact ⟨hs.1, fun _ => hneg⟩
    · have hx : ¬ (s.stepperPtr = true ∧ activate = true ∧ s.cycleComplete = false ∧
          s.direction ≤ 0 ∧ |a - s.startAngle| < 0.5 ∧ ¬ s.cycles < s.maxCycles) :=
        fun hx => hall ⟨hx.1, hx.2.1, hx.2.2.1⟩
      simp only [if_neg hall, if_neg hx]
      exact hs

/-- `checkArrival` never writes `maxCycles`. -/
theorem checkArrival_maxCycles (s : MovingMotor) (a : ℚ) :
    (s.checkArrival a).1.maxCycles = s.maxCycles := by
  unfold checkArrival
  split_ifs <;> rfl

/-- `update` never writes `maxCycles`. -/
theorem update_maxCycles (s : MovingMotor) (activate : Bool) (a : ℚ) (m : Bool) :
    (s.update activate a m).1.maxCycles = s.maxCycles := by
  rw [update_state]
  split_ifs
  · rfl
  · rw [checkArrival_maxCycles]
  · rfl

/-- The effect of one public call on `maxCycles`: only an accepted
`setMaxCycles` writes it. -/
theorem apply_maxCycles (s t : MovingMotor) (op : Op) (calls : List StepperCall)
    (h : op.apply s = some (t, calls)) :
    t.maxCycles = s.maxCycles ∨ (0 < t.maxCycles ∧ op = Op.setMaxCycles t.maxCycles) := by
  cases op with
  | update activate a m =>
      simp only [Op.apply, Option.some.injEq] at h
      have ht : t = (s.update activate a m).1 := by rw [h]
      rw [ht, update_maxCycles]; exact Or.inl rfl
  | reset motorStates =>
      rcases reset_state s t motorStates calls h with ⟨-, rfl⟩ | ⟨-, -, -, h4⟩
      · exact Or.inl rfl
      · exact Or.inl h4
  | init motorStates =>
      simp only [Op.apply, init] at h
      split at h
      · cases h; exact Or.inl rfl
      · cases h
  | goToStart motorStates =>
      simp only [Op.apply, goToStart] at h
      split at h
      · cases h; exact Or.inl rfl
      · split at h
        · cases h; exact Or.inl rfl
        · cases h
  | goToEnd motorStates =>
      simp only [Op.apply, goToEnd] at h
      split at h
      · cases h; exact Or.inl rfl
      · split at h
        · cases h
        · split at h
          · cases h; exact Or.inl rfl
          · cases h
  | outputToMotor => cases h; exact Or.inl rfl
  | setStartPosition a =>
      simp only [Op.apply, setStartPosition] at h
      split at h <;> (cases h; exact Or.inl rfl)
  | setEndPosition a =>
      simp only [Op.apply, setEndPosition] at h
      split at h <;> (cases h; exact Or.inl rfl)
  | setMaxVelocity v =>
      simp only [Op.apply, MovingMotor.setMaxVelocity] at h
      split at h <;> (cases h; exact Or.inl rfl)
  | setMaxAcceleration v =>
      simp only [Op.apply, MovingMotor.setMaxAcceleration] at h
      split at h <;> (cases h; exact Or.inl rfl)
  | setMaxCycles n =>
      simp only [Op.apply, MovingMotor.setMaxCycles] at h
      split at h
      · rename_i hn
        cases h; exact Or.inr ⟨hn, rfl⟩
      · cases h; exact Or.inl rfl
  | setUpVelocityMultiplier x =>
      simp only [Op.apply, MovingMotor.setUpVelocityMultiplier] at h
      split at h <;> (cases h; exact Or.inl rfl)
  | setUpAccelerationMultiplier x =>
      simp only [Op.apply, MovingMotor.setUpAccelerationMultiplier] at h
      split at h <;> (cases h; exact Or.inl rfl)
  | setDownVelocityMultiplier x =>
      simp only [Op.apply, MovingMotor.setDownVelocityMultiplier] at h
      split at h <;> (cases h; exact Or.inl rfl)
  | setDownAccelerationMultiplier x =>
      simp only [Op.apply, MovingMotor.setDownAccelerationMultiplier] at h
      split at h <;> (cases h; exact Or.inl rfl)

/-- The effect of one public call on `cycles`: unchanged, cleared, or one
more while still below `maxCycles`. -/
theorem apply_cycles (s t : MovingMotor) (op : Op) (calls : List StepperCall)
    (h : op.apply s = some (t, calls)) :
    t.cycles = s.cycles ∨ t.cycles = 0 ∨
      (t.cycles = s.cycles + 1 ∧ s.cycles < s.maxCycles) := by
  by_cases hu : ∀ activate a m, op ≠ Op.update activate a m
  · by_cases hr : ∀ motorStates, op ≠ Op.reset motorStates
    · exact Or.inl (apply_frame s t op calls hu hr h).1
    · push_neg at hr
      obtain ⟨motorStates, rfl⟩ := hr
      rcases reset_state s t motorStates calls h with ⟨-, rfl⟩ | ⟨-, h2, -, -⟩
      · exact Or.inl rfl
      · exact Or.inr (Or.inl h2)
  · push_neg at hu
    obtain ⟨activate, a, m, rfl⟩ := hu
    simp only [Op.apply, Option.some.injEq] at h
    have ht : t = (s.update activate a m).1 := by rw [h]
    rw [ht, update_cycles]
    split_ifs with hx
    · exact Or.inr (Or.inr ⟨rfl, hx.2.2.2.2.2⟩)
    · exact Or.inl rfl

/-- One public call that does not lower the ceiling below the count keeps
`0 < maxCycles` and `0 ≤ cycles ≤ maxCycles`. -/
theorem ceiling_inv_step (s t : MovingMotor) (op : Op) (calls : List StepperCall)
    (hs : 0 < s.maxCycles ∧ 0 ≤ s.cycles ∧ s.cycles ≤ s.maxCycles)
    (hop : ∀ numCycles, op = Op.setMaxCycles numCycles →
      numCycles ≤ 0 ∨ s.cycles ≤ numCycles)
    (h : op.apply s = some (t, calls)) :
    0 < t.maxCycles ∧ 0 ≤ t.cycles ∧ t.cycles ≤ t.maxCycles := by
  obtain ⟨h1, h2, h3⟩ := hs
  rcases apply_maxCycles s t op calls h with hm | ⟨hpos, rfl⟩
  · rcases apply_cycles s t op calls h with hc | hc | ⟨hc, hlt⟩
    · rw [hm, hc]; exact ⟨h1, h2, h3⟩
    · rw [hm, hc]; exact ⟨h1, le_refl 0, le_of_lt h1⟩
    · rw [hm, hc]; exact ⟨h1, by omega, by omega⟩
  · have hc : t.cycles = s.cycles :=
      (apply_frame s t _ calls (fun _ _ _ hx => by cases hx) (fun _ hx => by cases hx) h).1
    rcases hop t.maxCycles rfl with hle | hle
    · omega
    · rw [hc]; exact ⟨hpos, h2, hle⟩

/-- Along a sequence of returning calls that respects the ceiling,
`0 < maxCycles` and `0 ≤ cycles ≤ maxCycles` are kept. -/
theorem ceiling_inv_run :
    ∀ (ops : List Op) (s t : MovingMotor),
      (0 < s.maxCycles ∧ 0 ≤ s.cycles ∧ s.cycles ≤ s.maxCycles) →
      respectsCeiling s ops = true → runOps s ops = some t →
      0 < t.maxCycles ∧ 0 ≤ t.cycles ∧ t.cycles ≤ t.maxCycles := by
  intro ops
  induction ops with
  | nil =>
      intro s t hs _ h
      simp only [runOps, Option.some.injEq] at h
      rw [← h]; exact hs
  | cons op rest ih =>
      intro s t hs hk h
      simp only [runOps] at h
      simp only [respectsCeiling, Bool.and_eq_true] at hk
      split at h
      · rename_i u calls heq
        have hop : ∀ numCycles, op = Op.setMaxCycles numCycles →
            numCycles ≤ 0 ∨ s.cycles ≤ numCycles := by
          intro numCycles hn
          subst hn
          simpa using hk.1
        have hrest : respectsCeiling u rest = true := by
          have := hk.2
          rw [heq] at this
          exact this
        exact ih u t (ceiling_inv_step s u op calls hs hop heq) hrest h
      · cases h

/-! ## Rounding and truncation -/

/-- An integer rounds to itself. -/
theorem roundHalfEven_intCast (n : Int) : roundHalfEven (n : ℚ) = n := by
  unfold roundHalfEven
  rw [Int.floor_intCast, if_pos (by norm_num)]

/-- A value closer than 1/2 to an integer rounds to that integer. -/
theorem roundHalfEven_eq_of_abs_lt (x : ℚ) (n : Int) (h : |x - n| < 1 / 2) :
    roundHalfEven x = n := by
  rw [abs_lt] at h
  unfold roundHalfEven
  by_cases hx : (n : ℚ) ≤ x
  · have hf : ⌊x⌋ = n := by
      rw [Int.floor_eq_iff]; constructor <;> linarith [h.1, h.2]
    rw [hf, if_pos (by linarith [h.2])]
  · have hf : ⌊x⌋ = n - 1 := by
      rw [Int.floor_eq_iff]; push_cast; constructor <;> linarith [h.1, h.2]
    rw [hf]
    push_cast
    rw [if_neg (by linarith [h.1]), if_pos (by linarith [h.1])]
    ring

/-- Rounding to the nearest integer moves a value by at most 1/2. -/
theorem abs_roundHalfEven_sub_le (x : ℚ) : |(roundHalfEven x : ℚ) - x| ≤ 1 / 2 := by
  have h1 : (⌊x⌋ : ℚ) ≤ x := Int.floor_le x
  have h2 : x < ⌊x⌋ + 1 := Int.lt_floor_add_one x
  unfold roundHalfEven
  rw [abs_le]
  split_ifs with ha hb hc
  · constructor <;> linarith
  · push_cast; constructor <;> linarith
  · constructor <;> linarith
  · push_cast; constructor <;> linarith

/-- The exponent of a value between two consecutive powers of two, in the
normal range. -/
theorem floatExponent_eq (emin e : Int) (x : ℚ) (h1 : (2 : ℚ) ^ e ≤ |x|)
    (h2 : |x| < (2 : ℚ) ^ (e + 1)) (he : emin ≤ e) : floatExponent emin x = e := by
  have hpos : 0 < |x| := lt_of_lt_of_le (by positivity) h1
  have hlog : Int.log 2 |x| = e := by
    have ha : e ≤ Int.log 2 |x| :=
      (Int.zpow_le_iff_le_log (by norm_num) hpos).mp (by simpa using h1)
    have hb : Int.log 2 |x| < e + 1 :=
      (Int.lt_zpow_iff_log_lt (by norm_num) hpos).mp (by simpa using h2)
    omega
  unfold floatExponent
  rw [hlog]
  exact max_eq_left he

/-- Rounding of a value whose exponent is known. -/
theorem roundFloat_eq (prec : Nat) (emin e : Int) (x : ℚ) (h1 : (2 : ℚ) ^ e ≤ |x|)
    (h2 : |x| < (2 : ℚ) ^ (e + 1)) (he : emin ≤ e) :
    roundFloat prec emin x
      = roundHalfEven (x / 2 ^ (e - (prec - 1))) * 2 ^ (e - (prec - 1)) := by
  have hpos : 0 < |x| := lt_of_lt_of_le (by positivity) h1
  have hx : x ≠ 0 := abs_pos.mp hpos
  unfold roundFloat
  rw [if_neg hx, floatExponent_eq emin e x h1 h2 he]


/-- An integer below `2 ^ prec` in absolute value is a floating-point value:
rounding leaves it unchanged. -/
theorem roundFloat_intCast (prec : Nat) (emin : Int) (n : Int) (hemin : emin ≤ 0)
    (hn : |n| < 2 ^ prec) : roundFloat prec emin (n : ℚ) = n := by
  by_cases h0 : n = 0
  · subst h0; simp [roundFloat]
  · have hx : (n : ℚ) ≠ 0 := by exact_mod_cast h0
    have hpos : 0 < |(n : ℚ)| := abs_pos.mpr hx
    have hone : (1 : ℚ) ≤ |(n : ℚ)| := by
      have : (1 : Int) ≤ |n| := Int.one_le_abs h0
      exact_mod_cast this
    have hlt : |(n : ℚ)| < (2 : ℚ) ^ (prec : Int) := by
      have : ((|n| : Int) : ℚ) < ((2 ^ prec : Int) : ℚ) := by exact_mod_cast hn
      simpa using this
    have hL0 : 0 ≤ Int.log 2 |(n : ℚ)| :=
      (Int.zpow_le_iff_le_log (by norm_num) hpos).mp (by simpa using hone)
    have hL1 : Int.log 2 |(n : ℚ)| < prec :=
      (Int.lt_zpow_iff_log_lt (by norm_num) hpos).mp (by simpa using hlt)
    have hE : floatExponent emin (n : ℚ) = Int.log 2 |(n : ℚ)| := by
      unfold floatExponent
      exact max_eq_left (by omega)
    obtain ⟨k, hk⟩ : ∃ k : Nat, Int.log 2 |(n : ℚ)| - ((prec : Int) - 1) = -(k : Int) :=
      ⟨((prec : Int) - 1 - Int.log 2 |(n : ℚ)|).toNat, by omega⟩
    unfold roundFloat
    rw [if_neg hx, hE, hk, zpow_neg, zpow_natCast, div_inv_eq_mul]
    have hcast : (n : ℚ) * 2 ^ k = ((n * 2 ^ k : Int) : ℚ) := by push_cast; ring
    rw [hcast, roundHalfEven_intCast]
    push_cast
    field_simp

/-- In the normal range rounding moves a value by at most the fraction
`1 / 2 ^ prec` of its absolute value. -/
theorem abs_roundFloat_sub_le (prec : Nat) (emin : Int) (x : ℚ)
    (hx : (2 : ℚ) ^ emin ≤ |x|) : |roundFloat prec emin x - x| ≤ |x| / 2 ^ prec := by
  have hpos : 0 < |x| := lt_of_lt_of_le (by positivity) hx
  have hx0 : x ≠ 0 := abs_pos.mp hpos
  have hL : ((2 : Nat) : ℚ) ^ Int.log 2 |x| ≤ |x| := Int.zpow_log_le_self (by norm_num) hpos
  have hLe : emin ≤ Int.log 2 |x| :=
    (Int.zpow_le_iff_le_log (by norm_num) hpos).mp (by simpa using hx)
  have hE : floatExponent emin x = Int.log 2 |x| := by
    unfold floatExponent
    exact max_eq_left hLe
  unfold roundFloat
  rw [if_neg hx0, hE]
  set sc : ℚ := 2 ^ (Int.log 2 |x| - ((prec : Int) - 1)) with hsc
  have hscpos : 0 < sc := by positivity
  have hr := abs_roundHalfEven_sub_le (x / sc)
  have heq : (roundHalfEven (x / sc) : ℚ) * sc - x
      = ((roundHalfEven (x / sc) : ℚ) - x / sc) * sc := by field_simp
  rw [heq, abs_mul, abs_of_pos hscpos]
  have hhalf : sc / 2 = (2 : ℚ) ^ Int.log 2 |x| / 2 ^ prec := by
    rw [hsc, zpow_sub₀ (by norm_num), zpow_sub₀ (by norm_num), zpow_natCast]
    field_simp
    ring
  have h2 : (2 : ℚ) ^ Int.log 2 |x| / 2 ^ prec ≤ |x| / 2 ^ prec := by
    apply div_le_div_of_nonneg_right _ (by positivity)
    simpa using hL
  calc |(roundHalfEven (x / sc) : ℚ) - x / sc| * sc ≤ 1 / 2 * sc :=
        mul_le_mul_of_nonneg_right hr hscpos.le
    _ = sc / 2 := by ring
    _ = (2 : ℚ) ^ Int.log 2 |x| / 2 ^ prec := hhalf
    _ ≤ |x| / 2 ^ prec := h2


/-- Truncation toward zero is the floor of a non-negative value and the
ceiling of a negative one. -/
theorem truncate_eq (x : ℚ) : truncate x = if 0 ≤ x then ⌊x⌋ else ⌈x⌉ := by
  unfold truncate
  have hden : (0 : Int) ≤ (x.den : Int) := Int.ofNat_nonneg _
  by_cases hx : 0 ≤ x
  · rw [if_pos hx, Rat.floor_def]
    exact Int.tdiv_eq_ediv (Rat.num_nonneg.mpr hx) hden
  · rw [if_neg hx]
    have hneg : 0 ≤ -x := by linarith [not_le.mp hx]
    have h1 : ⌈x⌉ = -⌊-x⌋ := by rw [Int.floor_neg, neg_neg]
    rw [h1, Rat.floor_def, Rat.neg_num, Rat.neg_den]
    have h2 : Int.tdiv (-x.num) (x.den : Int) = (-x.num) / (x.den : Int) :=
      Int.tdiv_eq_ediv (by have := Rat.num_nonneg.mpr hneg; simpa using this) hden
    rw [← h2, Int.neg_tdiv, neg_neg]

/-- An integer truncates to itself. -/
theorem truncate_intCast (c : Int) : truncate (c : ℚ) = c := by
  rw [truncate_eq]
  split_ifs
  · exact Int.floor_intCast c
  · exact Int.ceil_intCast c

/-- A value closer than 1/9 to a ninth that is not an integer truncates as
that ninth does. -/
theorem truncate_eq_of_close (m : Int) (y : ℚ) (hm : ¬ (9 : Int) ∣ m)
    (hy : |y - (m : ℚ) / 9| < 1 / 9) : truncate y = truncate ((m : ℚ) / 9) := by
  have hsplit : m = 9 * (m / 9) + m % 9 := (Int.ediv_add_emod m 9).symm
  have hr0 : 0 ≤ m % 9 := Int.emod_nonneg m (by norm_num)
  have hr9 : m % 9 < 9 := Int.emod_lt_of_pos m (by norm_num)
  have hrne : m % 9 ≠ 0 := fun h => hm (Int.dvd_of_emod_eq_zero h)
  have hr1 : (1 : ℚ) ≤ ((m % 9 : Int) : ℚ) := by
    have : (1 : Int) ≤ m % 9 := by omega
    exact_mod_cast this
  have hr8 : ((m % 9 : Int) : ℚ) ≤ 8 := by
    have : m % 9 ≤ 8 := by omega
    exact_mod_cast this
  have hq : (m : ℚ) / 9 = ((m / 9 : Int) : ℚ) + ((m % 9 : Int) : ℚ) / 9 := by
    have : (m : ℚ) = 9 * ((m / 9 : Int) : ℚ) + ((m % 9 : Int) : ℚ) := by exact_mod_cast hsplit
    field_simp
    linarith
  rw [abs_lt] at hy
  rw [truncate_eq, truncate_eq]
  by_cases ht : 0 ≤ m / 9
  · have ht' : (0 : ℚ) ≤ ((m / 9 : Int) : ℚ) := by exact_mod_cast ht
    rw [if_pos (by linarith [hy.1]), if_pos (by linarith)]
    have h1 : ⌊y⌋ = m / 9 := by
      rw [Int.floor_eq_iff]; constructor <;> linarith [hy.1, hy.2]
    have h2 : ⌊(m : ℚ) / 9⌋ = m / 9 := by
      rw [Int.floor_eq_iff]; constructor <;> linarith
    rw [h1, h2]
  · have ht' : ((m / 9 : Int) : ℚ) ≤ -1 := by
      have : m / 9 ≤ -1 := by omega
      exact_mod_cast this
    rw [if_neg (by linarith [hy.2]), if_neg (by linarith)]
    have h1 : ⌈y⌉ = m / 9 + 1 := by
      rw [Int.ceil_eq_iff]; push_cast; constructor <;> linarith [hy.1, hy.2]
    have h2 : ⌈(m : ℚ) / 9⌉ = m / 9 + 1 := by
      rw [Int.ceil_eq_iff]; push_cast; constructor <;> linarith
    rw [h1, h2]


/-- Truncation toward zero does not increase the absolute value. -/
theorem abs_truncate_le (x : ℚ) : |(truncate x : ℚ)| ≤ |x| := by
  rw [truncate_eq]
  by_cases hx : 0 ≤ x
  · rw [if_pos hx, abs_of_nonneg hx, abs_of_nonneg (by exact_mod_cast Int.floor_nonneg.mpr hx)]
    exact Int.floor_le x
  · have hx' : x < 0 := not_le.mp hx
    have hc : (⌈x⌉ : ℚ) ≤ 0 := by exact_mod_cast Int.ceil_le.mpr (by simpa using hx'.le)
    rw [if_neg hx, abs_of_neg hx', abs_of_nonpos hc]
    linarith [Int.le_ceil x]

/-- The cast to `int` is defined on values below `2 ^ 31` in absolute value. -/
theorem castInt_of_abs_lt (x : ℚ) (hx : |x| < 2 ^ 31) : castInt x = some (truncate x) := by
  have h := abs_truncate_le x
  have h1 : |(truncate x : ℚ)| < 2 ^ 31 := lt_of_le_of_lt h hx
  rw [abs_lt] at h1
  have ha : -2 ^ 31 < truncate x := by exact_mod_cast h1.1
  have hb : truncate x < 2 ^ 31 := by exact_mod_cast h1.2
  unfold castInt
  rw [if_pos ⟨by omega, by omega⟩]

/-- For a whole number of degrees of absolute value at most 327 the conversion
`(int)(angle * RES)` involves no rounding error that survives truncation: it
yields the exact value `angle * (200 * 256) / 360` truncated toward zero. -/
theorem castInt_timesRES_intCast (d : Int) (hd : |d| ≤ 327) :
    castInt (timesRES (d : ℚ)) = some (truncate ((d : ℚ) * (200 * 256) / 360)) := by
  rw [abs_le] at hd
  have hprod : (d : ℚ) * (STEPSPERREV * 256) = ((d * 51200 : Int) : ℚ) := by
    unfold STEPSPERREV; push_cast; ring
  have h32 : binary32 ((d : ℚ) * (STEPSPERREV * 256)) = ((d * 51200 : Int) : ℚ) := by
    unfold binary32
    rw [hprod]
    apply roundFloat_intCast _ _ _ (by norm_num)
    rw [abs_lt]; constructor <;> omega
  have hq : ((d * 51200 : Int) : ℚ) / 360 = ((d * 1280 : Int) : ℚ) / 9 := by
    push_cast; ring
  have hexact : (d : ℚ) * (200 * 256) / 360 = ((d * 1280 : Int) : ℚ) / 9 := by
    push_cast; ring
  unfold timesRES
  rw [h32, hq, hexact]
  by_cases hdiv : (9 : Int) ∣ d * 1280
  · obtain ⟨c, hc⟩ := hdiv
    have hqc : ((d * 1280 : Int) : ℚ) / 9 = (c : ℚ) := by
      rw [hc]; push_cast; field_simp
    rw [hqc]
    have h64 : binary64 (c : ℚ) = c := by
      unfold binary64
      apply roundFloat_intCast _ _ _ (by norm_num)
      rw [abs_lt]; constructor <;> omega
    rw [h64]
    apply castInt_of_abs_lt
    have : |c| < 2 ^ 31 := by rw [abs_lt]; constructor <;> omega
    exact_mod_cast this
  · have hm0 : d * 1280 ≠ 0 := fun h => hdiv (by rw [h]; exact dvd_zero 9)
    have hmabs : (1 : ℚ) ≤ |((d * 1280 : Int) : ℚ)| := by
      have : (1 : Int) ≤ |d * 1280| := Int.one_le_abs hm0
      exact_mod_cast this
    have hmle : |((d * 1280 : Int) : ℚ)| ≤ 418560 := by
      have : |d * 1280| ≤ 418560 := by rw [abs_le]; constructor <;> omega
      exact_mod_cast this
    have habs : |((d * 1280 : Int) : ℚ) / 9| = |((d * 1280 : Int) : ℚ)| / 9 := by
      rw [abs_div]; norm_num
    have hlow : (2 : ℚ) ^ (-1022 : Int) ≤ |((d * 1280 : Int) : ℚ) / 9| := by
      rw [habs]
      have h4 : (2 : ℚ) ^ (-1022 : Int) ≤ 2 ^ (-4 : Int) :=
        zpow_le_zpow_right₀ (by norm_num) (by norm_num)
      have h5 : (2 : ℚ) ^ (-4 : Int) = 1 / 16 := by norm_num
      linarith
    have herr := abs_roundFloat_sub_le 53 (-1022) _ hlow
    have hclose : |binary64 (((d * 1280 : Int) : ℚ) / 9) - ((d * 1280 : Int) : ℚ) / 9|
        < 1 / 9 := by
      unfold binary64
      refine lt_of_le_of_lt herr ?_
      rw [habs]
      have hb1 : |((d * 1280 : Int) : ℚ)| / 9 / 2 ^ 53 ≤ 418560 / 9 / 2 ^ 53 :=
        div_le_div_of_nonneg_right (div_le_div_of_nonneg_right hmle (by norm_num))
          (by positivity)
      have hb2 : (418560 : ℚ) / 9 / 2 ^ 53 < 1 / 9 := by norm_num
      linarith
    rw [← truncate_eq_of_close (d * 1280) _ hdiv hclose]
    apply castInt_of_abs_lt
    have h1 := abs_sub_abs_le_abs_sub (binary64 (((d * 1280 : Int) : ℚ) / 9))
      (((d * 1280 : Int) : ℚ) / 9)
    rw [habs] at h1
    have hb3 : |((d * 1280 : Int) : ℚ)| / 9 ≤ 418560 / 9 :=
      div_le_div_of_nonneg_right hmle (by norm_num)
    have hb4 : (1 : ℚ) / 9 + 418560 / 9 < 2 ^ 31 := by norm_num
    linarith

/-- A blocking wait is released as soon as the driver answers once that it is
not moving. -/
theorem waitWhileMoving_of_mem :
    ∀ motorStates : List Bool, false ∈ motorStates → waitWhileMoving motorStates = true := by
  intro motorStates
  induction motorStates with
  | nil => intro h; cases h
  | cons b rest ih =>
      intro h
      cases b
      · rfl
      · simp only [waitWhileMoving]
        apply ih
        simpa using h

/-- Rounding of a value whose exponent and nearest scaled integer are known. -/
theorem roundFloat_of_near (prec : Nat) (emin e : Int) (x : ℚ) (n : Int)
    (h1 : (2 : ℚ) ^ e ≤ |x|) (h2 : |x| < (2 : ℚ) ^ (e + 1)) (he : emin ≤ e)
    (hn : |x / 2 ^ (e - (prec - 1)) - n| < 1 / 2) :
    roundFloat prec emin x = n * 2 ^ (e - (prec - 1)) := by
  rw [roundFloat_eq prec emin e x h1 h2 he, roundHalfEven_eq_of_abs_lt _ n hn]

/-- Rounding of a positive value whose exponent and nearest scaled integer are
known. -/
theorem roundFloat_of_near_pos (prec : Nat) (emin e : Int) (x : ℚ) (n : Int)
    (h0 : 0 < x) (h1 : (2 : ℚ) ^ e ≤ x) (h2 : x < (2 : ℚ) ^ (e + 1)) (he : emin ≤ e)
    (hn : |x / 2 ^ (e - (prec - 1)) - n| < 1 / 2) :
    roundFloat prec emin x = n * 2 ^ (e - (prec - 1)) :=
  roundFloat_of_near prec emin e x n (by rwa [abs_of_pos h0]) (by rwa [abs_of_pos h0]) he hn

/-- The result of `goToEnd` on a bound controller once the converted position
is known and the driver eventually rests. -/
theorem goToEnd_of_castInt (s : MovingMotor) (motorStates : List Bool) (p : Int)
    (hb : s.stepperPtr = true) (hw : false ∈ motorStates)
    (hp : castInt (timesRES (binary32 (s.endAngle - s.startAngle))) = some p) :
    s.goToEnd motorStates
      = some ({ s with position := p },
          [StepperCall.enableClosedLoop, StepperCall.moveToAngle s.endAngle]) := by
  have hb0 : ¬ s.stepperPtr = false := by simp [hb]
  unfold MovingMotor.goToEnd MovingMotor.angleToPosition
  rw [if_neg hb0, hp]
  simp [waitWhileMoving_of_mem motorStates hw]

/-- A tick of a running controller on which no arrival is detected: the state
only records `isActive`, and the restart branch runs when the driver is not
moving. -/
theorem update_no_arrival (s : MovingMotor) (a : ℚ) (m : Bool)
    (hb : s.stepperPtr = true) (hc : s.cycleComplete = false)
    (ha : ¬ |a - s.targetAngle| < 0.5) :
    s.update true a m
      = ({ s with isActive := true }, if m = false then startMovement s else []) := by
  have hcheck : checkArrival { s with isActive := true } a = ({ s with isActive := true }, []) := by
    unfold targetAngle at ha
    by_cases hd : 0 < s.direction
    · rw [if_pos hd] at ha
      exact checkArrival_off_end { s with isActive := true } a hd ha
    · rw [if_neg hd] at ha
      exact checkArrival_off_start { s with isActive := true } a hd ha
  rw [update_running s a m hb hc, hcheck]
  cases m
  · simp [hc, startMovement, targetAngle]
  · simp

/-- `checkArrival` never writes `stepperPtr`. -/
theorem checkArrival_stepperPtr (s : MovingMotor) (a : ℚ) :
    (s.checkArrival a).1.stepperPtr = s.stepperPtr := by
  unfold checkArrival
  split_ifs <;> rfl

/-- `update` never writes `stepperPtr`. -/
theorem update_stepperPtr (s : MovingMotor) (activate : Bool) (a : ℚ) (m : Bool) :
    (s.update activate a m).1.stepperPtr = s.stepperPtr := by
  rw [update_state]
  split_ifs
  · rfl
  · rw [checkArrival_stepperPtr]
  · rfl

/-- An `update(true)` tick on which no arrival is detected and the driver
reports motion makes no call on the driver. -/
theorem update_quiet (s : MovingMotor) (a : ℚ)
    (ha : ¬ |a - s.targetAngle| < 0.5) : (s.update true a true).2 = [] := by
  by_cases hb : s.stepperPtr = false
  · rw [update_unbound s true a true hb]
  · have hb1 : s.stepperPtr = true := by simpa using hb
    by_cases hc : s.cycleComplete = false
    · rw [update_no_arrival s a true hb1 hc ha]; simp
    · rw [update_complete s a true hb1 (by simpa using hc)]

/-! ## The arrival transitions of `update` -/

/-- C5: on a bound, non-complete controller heading for the end angle
(`direction > 0`), an `update(true)` tick that reads an angle within 0.5 of
`endAngle` sets `direction` to -1 (toward start) and `isActive` to true,
keeps every other field (so `cycles` and `cycleComplete` are unchanged), and
sends the down-profile limits `maxVelocity * downVelocityMultiplier` and
`maxAcceleration * downAccelMultiplier`, then `enableClosedLoop` and the move
to `startAngle`; when the driver answers that it is not moving, the restart
branch sends the same four calls once more. -/
theorem update_arrival_at_end (s : MovingMotor) (currentAngle : ℚ) (motorState : Bool)
    (hb : s.stepperPtr = true) (hc : s.cycleComplete = false)
    (hd : 0 < s.direction) (ha : |currentAngle - s.endAngle| < 0.5) :
    (s.update true currentAngle motorState).1
        = { s with isActive := true, direction := -1 } ∧
    (s.update true currentAngle motorState).2
        = [StepperCall.setMaxVelocity (s.maxVelocity * s.downVelocityMultiplier),
           StepperCall.setMaxAcceleration (s.maxAcceleration * s.downAccelMultiplier),
           StepperCall.enableClosedLoop,
           StepperCall.moveToAngle s.startAngle]
          ++ (if motorState = true then []
              else [StepperCall.setMaxVelocity (s.maxVelocity * s.downVelocityMultiplier),
                    StepperCall.setMaxAcceleration (s.maxAcceleration * s.downAccelMultiplier),
                    StepperCall.enableClosedLoop,
                    StepperCall.moveToAngle s.startAngle]) := by
  rw [update_running s currentAngle motorState hb hc,
    checkArrival_at_end { s with isActive := true } currentAngle hd ha]
  cases motorState <;> norm_num [startMovement, targetAngle, hc]

/-- Witness for C5: the scenario controller reads the angle 90 while the driver
reports motion. -/
theorem update_arrival_at_end_witness :
    (demoMotor.stepperPtr = true ∧ demoMotor.cycleComplete = false ∧
      0 < demoMotor.direction ∧ |(90 : ℚ) - demoMotor.endAngle| < 0.5) ∧
    ((demoMotor.update true 90 true).1
        = { demoMotor with isActive := true, direction := -1 } ∧
    (demoMotor.update true 90 true).2
        = [StepperCall.setMaxVelocity (demoMotor.maxVelocity * demoMotor.downVelocityMultiplier),
           StepperCall.setMaxAcceleration
             (demoMotor.maxAcceleration * demoMotor.downAccelMultiplier),
           StepperCall.enableClosedLoop,
           StepperCall.moveToAngle demoMotor.startAngle]
          ++ (if true = true then []
              else [StepperCall.setMaxVelocity
                      (demoMotor.maxVelocity * demoMotor.downVelocityMultiplier),
                    StepperCall.setMaxAcceleration
                      (demoMotor.maxAcceleration * demoMotor.downAccelMultiplier),
                    StepperCall.enableClosedLoop,
                    StepperCall.moveToAngle demoMotor.startAngle])) :=
  ⟨⟨rfl, rfl, by norm_num [demoReturning, demoLastReturn, demoMotor, construct], by norm_num [demoReturning, demoLastReturn, demoMotor, construct]⟩,
    update_arrival_at_end demoMotor 90 true rfl rfl
      (by norm_num [demoReturning, demoLastReturn, demoMotor, construct]) (by norm_num [demoReturning, demoLastReturn, demoMotor, construct])⟩


/-- C6: on a bound, non-complete controller heading for the start angle
(`direction > 0` false) with `cycles < maxCycles`, an `update(true)` tick that
reads an angle within 0.5 of `startAngle` adds one to `cycles`, sets
`direction` to 1 (toward end) and `isActive` to true, keeps every other field
(so `cycleComplete` stays false), and sends the up-profile limits
`maxVelocity * upVelocityMultiplier` and `maxAcceleration * upAccelMultiplier`,
then `enableClosedLoop` and the move to `endAngle`; when the driver answers
that it is not moving, the restart branch sends the same four calls once
more. -/
theorem update_arrival_at_start_more (s : MovingMotor) (currentAngle : ℚ)
    (motorState : Bool) (hb : s.stepperPtr = true) (hc : s.cycleComplete = false)
    (hd : s.direction ≤ 0) (ha : |currentAngle - s.startAngle| < 0.5)
    (hn : s.cycles < s.maxCycles) :
    (s.update true currentAngle motorState).1
        = { s with isActive := true, direction := 1, cycles := s.cycles + 1 } ∧
    (s.update true currentAngle motorState).1.cycleComplete = false ∧
    (s.update true currentAngle motorState).2
        = [StepperCall.setMaxVelocity (s.maxVelocity * s.upVelocityMultiplier),
           StepperCall.setMaxAcceleration (s.maxAcceleration * s.upAccelMultiplier),
           StepperCall.enableClosedLoop,
           StepperCall.moveToAngle s.endAngle]
          ++ (if motorState = true then []
              else [StepperCall.setMaxVelocity (s.maxVelocity * s.upVelocityMultiplier),
                    StepperCall.setMaxAcceleration (s.maxAcceleration * s.upAccelMultiplier),
                    StepperCall.enableClosedLoop,
                    StepperCall.moveToAngle s.endAngle]) := by
  rw [update_running s currentAngle motorState hb hc,
    checkArrival_at_start_more { s with isActive := true } currentAngle (not_lt.mpr hd) ha hn]
  cases motorState <;> norm_num [startMovement, targetAngle, hc]

/-- Witness for C6: the scenario controller on its way back (direction -1, no
cycle counted yet) reads the angle 0 while the driver reports no motion. -/
theorem update_arrival_at_start_more_witness :
    (demoReturning.stepperPtr = true ∧
      demoReturning.cycleComplete = false ∧
      demoReturning.direction ≤ 0 ∧
      |(0 : ℚ) - demoReturning.startAngle| < 0.5 ∧
      demoReturning.cycles
        < demoReturning.maxCycles) ∧
    ((demoReturning.update true 0 false).1.cycles = 1 ∧
      (demoReturning.update true 0 false).1.direction = 1 ∧
      (demoReturning.update true 0 false).1.cycleComplete
        = false ∧
      (demoReturning.update true 0 false).2
        = [StepperCall.setMaxVelocity 1500, StepperCall.setMaxAcceleration 4000,
           StepperCall.enableClosedLoop, StepperCall.moveToAngle 90,
           StepperCall.setMaxVelocity 1500, StepperCall.setMaxAcceleration 4000,
           StepperCall.enableClosedLoop, StepperCall.moveToAngle 90]) := by
  have h := update_arrival_at_start_more demoReturning 0 false rfl rfl
    (by norm_num [demoReturning, demoLastReturn]) (by norm_num [demoReturning, demoLastReturn, demoMotor, construct]) (by norm_num [demoReturning, demoLastReturn, demoMotor, construct])
  refine ⟨⟨rfl, rfl, by norm_num [demoReturning, demoLastReturn], by norm_num [demoReturning, demoLastReturn, demoMotor, construct],
    by norm_num [demoReturning, demoLastReturn, demoMotor, construct]⟩, ?_, ?_, h.2.1, ?_⟩
  · rw [h.1]; norm_num [demoReturning, demoLastReturn, demoMotor, construct]
  · rw [h.1]
  · rw [h.2.2]; norm_num [demoReturning, demoLastReturn, demoMotor, construct]

/-- C7: on a bound, non-complete controller heading for the start angle with
`cycles = maxCycles`, an `update(true)` tick that reads an angle within 0.5 of
`startAngle` sets `cycleComplete` (and `isActive`) to true, keeps every other
field (so `cycles` and `direction` are unchanged), and the calls made on the
driver are exactly one `stop`, whatever the driver would answer for its
motor state. -/
theorem update_arrival_at_start_done (s : MovingMotor) (currentAngle : ℚ)
    (motorState : Bool) (hb : s.stepperPtr = true) (hc : s.cycleComplete = false)
    (hd : s.direction ≤ 0) (ha : |currentAngle - s.startAngle| < 0.5)
    (hn : s.cycles = s.maxCycles) :
    s.update true currentAngle motorState
      = ({ s with isActive := true, cycleComplete := true }, [StepperCall.stop]) := by
  exact update_at_start_done s currentAngle motorState hb hc (not_lt.mpr hd) ha
    (by simp [hn])

/-- Witness for C7: the scenario controller on its way back with two cycles
counted reads the angle 0 while the driver reports no motion. -/
theorem update_arrival_at_start_done_witness :
    (demoLastReturn.stepperPtr = true ∧
      demoLastReturn.cycleComplete = false ∧
      demoLastReturn.direction ≤ 0 ∧
      |(0 : ℚ) - demoLastReturn.startAngle|
        < 0.5 ∧
      demoLastReturn.cycles
        = demoLastReturn.maxCycles) ∧
    demoLastReturn.update true 0 false
      = ({ demoLastReturn with isActive := true, cycleComplete := true },
          [StepperCall.stop]) :=
  ⟨⟨rfl, rfl, by norm_num [demoReturning, demoLastReturn], by norm_num [demoReturning, demoLastReturn, demoMotor, construct], rfl⟩,
    update_arrival_at_start_done demoLastReturn 0 false
      rfl rfl (by norm_num [demoReturning, demoLastReturn]) (by norm_num [demoReturning, demoLastReturn, demoMotor, construct]) rfl⟩

/-! ## Deactivation and completion -/

/-- C10: on every bound controller, whatever its direction, cycle count and
completion flag, `update(false)` makes exactly one call on the driver, `stop`,
sets `isActive` to false and keeps every other field: `cycleComplete`,
`cycles`, `direction`, `startAngle`, `endAngle`, both limits, the four
multipliers (and `maxCycles`, `position`, `speed`, `distance`). -/
theorem update_false_stops (s : MovingMotor) (currentAngle : ℚ) (motorState : Bool)
    (hb : s.stepperPtr = true) :
    s.update false currentAngle motorState
      = ({ s with isActive := false }, [StepperCall.stop]) :=
  update_inactive s currentAngle motorState hb

/-- Witness for C10: the scenario controller deactivated in mid-run. -/
theorem update_false_stops_witness :
    demoMidRun.stepperPtr
      = true ∧
    demoMidRun.update
        false 45 true
      = ({ demoMidRun with isActive := false }, [StepperCall.stop]) :=
  ⟨rfl, update_false_stops demoMidRun 45 true rfl⟩


/-- C8: a controller whose `cycleComplete` is true keeps it true through every
public call other than `reset` (whenever the call returns), and an
`update(true)` call on it makes no call at all on the driver and leaves
`direction` and `cycles` unchanged, for every driver angle and motor state. -/
theorem complete_is_terminal (s : MovingMotor) (hc : s.cycleComplete = true) :
    (∀ (op : Op) (t : MovingMotor) (calls : List StepperCall),
        (∀ motorStates, op ≠ Op.reset motorStates) →
        op.apply s = some (t, calls) → t.cycleComplete = true) ∧
    (∀ (currentAngle : ℚ) (motorState : Bool),
        (s.update true currentAngle motorState).2 = [] ∧
        (s.update true currentAngle motorState).1.direction = s.direction ∧
        (s.update true currentAngle motorState).1.cycles = s.cycles ∧
        (s.update true currentAngle motorState).1.cycleComplete = true) := by
  constructor
  · intro op t calls hr h
    by_cases hu : ∀ activate a m, op ≠ Op.update activate a m
    · rw [(apply_frame s t op calls hu hr h).2.2, hc]
    · push_neg at hu
      obtain ⟨activate, a, m, rfl⟩ := hu
      simp only [Op.apply, Option.some.injEq] at h
      have ht : t = (s.update activate a m).1 := by rw [h]
      rw [ht, update_cycleComplete, if_neg (fun hx => by simp [hc] at hx), hc]
  · intro a m
    refine ⟨?_, ?_, ?_, ?_⟩
    · by_cases hb : s.stepperPtr = false
      · rw [update_unbound s true a m hb]
      · rw [update_complete s a m (by simpa using hb) hc]
    · rw [update_direction, if_neg (fun hx => by simp [hc] at hx)]
    · rw [update_cycles, if_neg (fun hx => by simp [hc] at hx)]
    · rw [update_cycleComplete, if_neg (fun hx => by simp [hc] at hx), hc]


/-- Witness for C8: on the completed scenario controller `setMaxCycles(7)` and
`update(true)` at angle 90 keep it complete, and that `update(true)` sends
nothing. -/
theorem complete_is_terminal_witness :
    demoDone.cycleComplete = true ∧
    (demoDone.setMaxCycles 7).cycleComplete = true ∧
    (demoDone.update true 90 false).2 = [] ∧
    (demoDone.update true 90 false).1.direction = demoDone.direction ∧
    (demoDone.update true 90 false).1.cycles = demoDone.cycles ∧
    (demoDone.update true 90 false).1.cycleComplete = true :=
  ⟨rfl,
    (complete_is_terminal demoDone rfl).1 (Op.setMaxCycles 7) (demoDone.setMaxCycles 7) []
      (fun _ h => by cases h) rfl,
    (complete_is_terminal demoDone rfl).2 90 false⟩

/-! ## The cycle counter -/

/-- C3: an `update` call leaves `cycles` unchanged or adds exactly one to it,
and it adds one if and only if the driver is bound, `activate` is true,
`cycleComplete` is false, the direction is toward the start (`direction > 0`
false), the angle read is within 0.5 of `startAngle` and `cycles < maxCycles`.
Every public call other than `update` and `reset` leaves `cycles`
unchanged. -/
theorem cycles_step (s : MovingMotor) :
    (∀ (activate : Bool) (currentAngle : ℚ) (motorState : Bool),
        ((s.update activate currentAngle motorState).1.cycles = s.cycles ∨
          (s.update activate currentAngle motorState).1.cycles = s.cycles + 1) ∧
        ((s.update activate currentAngle motorState).1.cycles = s.cycles + 1 ↔
          s.stepperPtr = true ∧ activate = true ∧ s.cycleComplete = false ∧
            s.direction ≤ 0 ∧ |currentAngle - s.startAngle| < 0.5 ∧
            s.cycles < s.maxCycles)) ∧
    (∀ (op : Op) (t : MovingMotor) (calls : List StepperCall),
        (∀ activate a m, op ≠ Op.update activate a m) →
        (∀ motorStates, op ≠ Op.reset motorStates) →
        op.apply s = some (t, calls) → t.cycles = s.cycles) := by
  constructor
  · intro activate a m
    rw [update_cycles]
    by_cases hx : s.stepperPtr = true ∧ activate = true ∧ s.cycleComplete = false ∧
        s.direction ≤ 0 ∧ |a - s.startAngle| < 0.5 ∧ s.cycles < s.maxCycles
    · rw [if_pos hx]
      exact ⟨Or.inr rfl, fun _ => hx, fun _ => rfl⟩
    · rw [if_neg hx]
      exact ⟨Or.inl rfl, fun h => absurd h (by omega), fun h => absurd h hx⟩
  · intro op t calls hu hr h
    exact (apply_frame s t op calls hu hr h).1

/-- Witness for C3: on the scenario controller on its way back, `update(true)`
at angle 0 counts a cycle, `update(true)` at angle 45 does not,
`setMaxCycles(7)` does not. -/
theorem cycles_step_witness :
    (demoReturning.update true 0 true).1.cycles = demoReturning.cycles + 1 ∧
    (demoReturning.update true 45 true).1.cycles ≠ demoReturning.cycles + 1 ∧
    (demoReturning.setMaxCycles 7).cycles = demoReturning.cycles := by
  refine ⟨?_, ?_, ?_⟩
  · exact ((cycles_step demoReturning).1 true 0 true).2.2
      ⟨rfl, rfl, rfl, by norm_num [demoReturning],
        by norm_num [demoReturning, demoMotor, construct],
        by norm_num [demoReturning, demoMotor, construct]⟩
  · intro h
    have hx := (((cycles_step demoReturning).1 true 45 true).2.1 h).2.2.2.2.1
    norm_num [demoReturning, demoMotor, construct] at hx
  · exact (cycles_step demoReturning).2 (Op.setMaxCycles 7) (demoReturning.setMaxCycles 7) []
      (fun _ _ _ h => by cases h) (fun _ h => by cases h) rfl


/-! ## The arrival tolerance -/

/-- C4: write `target` for `targetAngle`, the end angle when `direction > 0`
and the start angle otherwise.  On a bound, non-complete controller an
`update(true)` tick makes a phase transition (the test `direction > 0` changes
its outcome, or `cycleComplete` becomes true) exactly when
`|currentAngle - target| < 0.5`; when the angle read is at least 0.5 below or
at least 0.5 above the target, `direction`, `cycles` and `cycleComplete` are
unchanged.  Whenever any `update` call changes `direction`, the controller
was bound, active and not complete, the angle read was within 0.5 of the
target, the test `direction > 0` has changed its outcome, and from the values
1 and -1 the new value is the negated old one. -/
theorem update_phase_transition (s : MovingMotor) (activate : Bool) (currentAngle : ℚ)
    (motorState : Bool) :
    (s.stepperPtr = true → s.cycleComplete = false → activate = true →
      ((((0 < (s.update activate currentAngle motorState).1.direction ↔ ¬ 0 < s.direction) ∨
          (s.update activate currentAngle motorState).1.cycleComplete = true) ↔
        |currentAngle - s.targetAngle| < 0.5) ∧
      ((currentAngle ≤ s.targetAngle - 0.5 ∨ s.targetAngle + 0.5 ≤ currentAngle) →
        (s.update activate currentAngle motorState).1.direction = s.direction ∧
        (s.update activate currentAngle motorState).1.cycles = s.cycles ∧
        (s.update activate currentAngle motorState).1.cycleComplete = s.cycleComplete))) ∧
    ((s.update activate currentAngle motorState).1.direction ≠ s.direction →
      s.stepperPtr = true ∧ activate = true ∧ s.cycleComplete = false ∧
      |currentAngle - s.targetAngle| < 0.5 ∧
      (0 < (s.update activate currentAngle motorState).1.direction ↔ ¬ 0 < s.direction) ∧
      (s.direction = 1 ∨ s.direction = -1 →
        (s.update activate currentAngle motorState).1.direction = - s.direction)) := by
  rw [update_direction, update_cycles, update_cycleComplete]
  unfold targetAngle
  constructor
  · intro hb hc hact
    have hall : s.stepperPtr = true ∧ activate = true ∧ s.cycleComplete = false :=
      ⟨hb, hact, hc⟩
    simp only [if_pos hall]
    by_cases hd : 0 < s.direction
    · have hnd : ¬ s.direction ≤ 0 := not_le.mpr hd
      have hx1 : ¬ (s.stepperPtr = true ∧ activate = true ∧ s.cycleComplete = false ∧
          s.direction ≤ 0 ∧ |currentAngle - s.startAngle| < 0.5 ∧ s.cycles < s.maxCycles) :=
        fun h => hnd h.2.2.2.1
      have hx2 : ¬ (s.stepperPtr = true ∧ activate = true ∧ s.cycleComplete = false ∧
          s.direction ≤ 0 ∧ |currentAngle - s.startAngle| < 0.5 ∧ ¬ s.cycles < s.maxCycles) :=
        fun h => hnd h.2.2.2.1
      simp only [if_pos hd, if_neg hx1, if_neg hx2]
      by_cases ha : |currentAngle - s.endAngle| < 0.5
      · simp only [if_pos ha]
        refine ⟨⟨fun _ => ha, fun _ => Or.inl ⟨fun h => absurd h (by norm_num),
          fun h => absurd hd h⟩⟩, fun hfar => ?_⟩
        rw [abs_lt] at ha
        rcases hfar with hfar | hfar <;> linarith [ha.1, ha.2]
      · simp only [if_neg ha]
        refine ⟨⟨fun h => ?_, fun h => absurd h ha⟩, fun _ => ⟨trivial, trivial, trivial⟩⟩
        rcases h with h | h
        · exact absurd hd (h.mp hd)
        · rw [hc] at h; cases h
    · have hle : s.direction ≤ 0 := not_lt.mp hd
      simp only [if_neg hd]
      by_cases ha : |currentAngle - s.startAngle| < 0.5
      · by_cases hn : s.cycles < s.maxCycles
        · have h1 : |currentAngle - s.startAngle| < 0.5 ∧ s.cycles < s.maxCycles := ⟨ha, hn⟩
          simp only [if_pos h1]
          refine ⟨⟨fun _ => ha, fun _ => Or.inl ⟨fun _ => hd, fun _ => by norm_num⟩⟩,
            fun hfar => ?_⟩
          rw [abs_lt] at ha
          rcases hfar with hfar | hfar <;> linarith [ha.1, ha.2]
        · have h1 : ¬ (|currentAngle - s.startAngle| < 0.5 ∧ s.cycles < s.maxCycles) :=
            fun h => hn h.2
          have h2 : s.stepperPtr = true ∧ activate = true ∧ s.cycleComplete = false ∧
              s.direction ≤ 0 ∧ |currentAngle - s.startAngle| < 0.5 ∧
              ¬ s.cycles < s.maxCycles := ⟨hb, hact, hc, hle, ha, hn⟩
          simp only [if_neg h1, if_pos h2]
          refine ⟨⟨fun _ => ha, fun _ => Or.inr trivial⟩, fun hfar => ?_⟩
          rw [abs_lt] at ha
          rcases hfar with hfar | hfar <;> linarith [ha.1, ha.2]
      · have h1 : ¬ (|currentAngle - s.startAngle| < 0.5 ∧ s.cycles < s.maxCycles) :=
          fun h => ha h.1
        have hx1 : ¬ (s.stepperPtr = true ∧ activate = true ∧ s.cycleComplete = false ∧
            s.direction ≤ 0 ∧ |currentAngle - s.startAngle| < 0.5 ∧ s.cycles < s.maxCycles) :=
          fun h => ha h.2.2.2.2.1
        have hx2 : ¬ (s.stepperPtr = true ∧ activate = true ∧ s.cycleComplete = false ∧
            s.direction ≤ 0 ∧ |currentAngle - s.startAngle| < 0.5 ∧ ¬ s.cycles < s.maxCycles) :=
          fun h => ha h.2.2.2.2.1
        simp only [if_neg h1, if_neg hx1, if_neg hx2]
        refine ⟨⟨fun h => ?_, fun h => absurd h ha⟩, fun _ => ⟨trivial, trivial, trivial⟩⟩
        rcases h with h | h
        · exact absurd (h.mpr hd) hd
        · rw [hc] at h; cases h
  · intro hchg
    by_cases hall : s.stepperPtr = true ∧ activate = true ∧ s.cycleComplete = false
    · simp only [if_pos hall] at hchg ⊢
      refine ⟨hall.1, hall.2.1, hall.2.2, ?_⟩
      by_cases hd : 0 < s.direction
      · simp only [if_pos hd] at hchg ⊢
        by_cases ha : |currentAngle - s.endAngle| < 0.5
        · simp only [if_pos ha]
          refine ⟨ha, ⟨fun h => absurd h (by norm_num), fun h => absurd hd h⟩, fun h1 => ?_⟩
          rcases h1 with h1 | h1
          · rw [h1]
          · rw [h1] at hd; norm_num at hd
        · simp only [if_neg ha] at hchg; exact absurd rfl hchg
      · simp only [if_neg hd] at hchg ⊢
        by_cases h1 : |currentAngle - s.startAngle| < 0.5 ∧ s.cycles < s.maxCycles
        · simp only [if_pos h1]
          refine ⟨h1.1, ⟨fun _ => hd, fun _ => by norm_num⟩, fun h2 => ?_⟩
          rcases h2 with h2 | h2
          · rw [h2] at hd; norm_num at hd
          · rw [h2]; norm_num
        · simp only [if_neg h1] at hchg; exact absurd rfl hchg
    · simp only [if_neg hall] at hchg; exact absurd rfl hchg


/-- Witness for C4: on the scenario controller heading for the end angle 90,
at 89.6 the phase changes, at 89.5 and at 90.5 nothing changes. -/
theorem update_phase_transition_witness :
    ((0 < (demoMotor.update true 89.6 true).1.direction ↔ ¬ 0 < demoMotor.direction) ∨
        (demoMotor.update true 89.6 true).1.cycleComplete = true) ∧
    ((demoMotor.update true 89.5 true).1.direction = demoMotor.direction ∧
      (demoMotor.update true 89.5 true).1.cycles = demoMotor.cycles ∧
      (demoMotor.update true 89.5 true).1.cycleComplete = demoMotor.cycleComplete) ∧
    ((demoMotor.update true 90.5 true).1.direction = demoMotor.direction ∧
      (demoMotor.update true 90.5 true).1.cycles = demoMotor.cycles ∧
      (demoMotor.update true 90.5 true).1.cycleComplete = demoMotor.cycleComplete) :=
  ⟨((update_phase_transition demoMotor true 89.6 true).1 rfl rfl rfl).1.mpr
      (by norm_num [targetAngle, demoMotor, construct, abs_lt]),
    ((update_phase_transition demoMotor true 89.5 true).1 rfl rfl rfl).2
      (Or.inl (by norm_num [targetAngle, demoMotor, construct])),
    ((update_phase_transition demoMotor true 90.5 true).1 rfl rfl rfl).2
      (Or.inr (by norm_num [targetAngle, demoMotor, construct]))⟩


/-! ## Completion and direction -/

/-- C9: in every state produced from a constructed controller by a sequence of
public calls, `cycleComplete = true` implies that `direction` is -1, so that
the test `direction > 0` fails (toward start); and every `update` call that
turns `cycleComplete` from false to true makes the call `stop` on the
driver. -/
theorem complete_means_toward_start :
    (∀ t : MovingMotor, Reachable t → t.cycleComplete = true →
        t.direction = -1 ∧ ¬ 0 < t.direction) ∧
    (∀ (s : MovingMotor) (activate : Bool) (currentAngle : ℚ) (motorState : Bool),
        s.cycleComplete = false →
        (s.update activate currentAngle motorState).1.cycleComplete = true →
        StepperCall.stop ∈ (s.update activate currentAngle motorState).2) := by
  constructor
  · rintro t ⟨startPos, startDistance, startSpeed, endPos, maxVel, maxAccel, maxBounces,
      upVelMult, upAccMult, downVelMult, downAccMult, ops, hrun⟩ hc
    have hinv := runOps_induction
      (fun u => (u.direction = 1 ∨ u.direction = -1) ∧
        (u.cycleComplete = true → u.direction = -1))
      direction_inv_step ops _ t
      ⟨Or.inl rfl, fun h => by simp [construct] at h⟩ hrun
    have hneg := hinv.2 hc
    exact ⟨hneg, by rw [hneg]; norm_num⟩
  · intro s activate a m hc hdone
    rw [update_cycleComplete] at hdone
    by_cases hx : s.stepperPtr = true ∧ activate = true ∧ s.cycleComplete = false ∧
        s.direction ≤ 0 ∧ |a - s.startAngle| < 0.5 ∧ ¬ s.cycles < s.maxCycles
    · obtain ⟨hb, hact, -, hd, ha, hn⟩ := hx
      subst hact
      rw [update_at_start_done s a m hb hc (not_lt.mpr hd) ha hn]
      simp
    · rw [if_neg hx, hc] at hdone
      cases hdone

/-- Witness for C9: the spec scenario run to its end reaches a complete state,
whose direction is -1; and the tick that completes the run sends `stop`. -/
theorem complete_means_toward_start_witness :
    runOps (construct 0 0 0 90 500 2000 2 3 2 1.5 1) demoOps = some demoDone ∧
    demoDone.cycleComplete = true ∧
    (demoDone.direction = -1 ∧ ¬ 0 < demoDone.direction) ∧
    demoLastReturn.cycleComplete = false ∧
    (demoLastReturn.update true 0 false).1.cycleComplete = true ∧
    StepperCall.stop ∈ (demoLastReturn.update true 0 false).2 := by
  have hrun : runOps (construct 0 0 0 90 500 2000 2 3 2 1.5 1) demoOps = some demoDone := by
    norm_num [demoOps, demoDone, demoMotor, runOps, Op.apply, init, waitWhileMoving, update,
      checkArrival, startMovement, construct]
  have hdone : (demoLastReturn.update true 0 false).1.cycleComplete = true := by
    norm_num [demoLastReturn, demoMotor, update, checkArrival, startMovement, construct]
  exact ⟨hrun, rfl,
    complete_means_toward_start.1 demoDone ⟨0, 0, 0, 90, 500, 2000, 2, 3, 2, 1.5, 1, demoOps, hrun⟩
      rfl,
    rfl, hdone, complete_means_toward_start.2 demoLastReturn true 0 false rfl hdone⟩


/-! ## The cycle ceiling -/

/-- C2 as stated fails: the controller constructed with `maxBounces = 2`,
initialised and driven through two full bounces has `cycles = 2`; the call
`setMaxCycles(1)` is then accepted, and leaves `cycles = 2 > maxCycles = 1`. -/
theorem cycles_exceed_maxCycles_after_lowering :
    0 < (construct 0 0 0 90 500 2000 2 3 2 1.5 1).maxCycles ∧
    runOps (construct 0 0 0 90 500 2000 2 3 2 1.5 1) demoBreakOps
      = some { demoMotor with isActive := true, cycles := 2, maxCycles := 1 } ∧
    ¬ (({ demoMotor with isActive := true, cycles := 2, maxCycles := 1 } : MovingMotor).cycles
        ≤ ({ demoMotor with isActive := true, cycles := 2, maxCycles := 1 } : MovingMotor).maxCycles)
    := by
  refine ⟨by norm_num [construct], ?_, by norm_num⟩
  norm_num [demoBreakOps, demoMotor, runOps, Op.apply, init, waitWhileMoving, update,
    checkArrival, startMovement, MovingMotor.setMaxCycles, construct]

/-- C2, amended: in every state produced from a controller constructed with
`maxBounces > 0` by a sequence of public calls in which every
`setMaxCycles(numCycles)` is made with `numCycles ≤ 0` or with `numCycles` at
least the cycle count at the time of the call, `0 ≤ cycles ≤ maxCycles`
holds. -/
theorem cycles_within_maxCycles (startPos : Int) (startDistance startSpeed : ℚ)
    (endPos : Int) (maxVel maxAccel : Nat) (maxBounces : Int)
    (upVelMult upAccMult downVelMult downAccMult : ℚ) (ops : List Op) (t : MovingMotor)
    (hpos : 0 < maxBounces)
    (hk : respectsCeiling (construct startPos startDistance startSpeed endPos maxVel maxAccel
      maxBounces upVelMult upAccMult downVelMult downAccMult) ops = true)
    (h : runOps (construct startPos startDistance startSpeed endPos maxVel maxAccel
      maxBounces upVelMult upAccMult downVelMult downAccMult) ops = some t) :
    0 ≤ t.cycles ∧ t.cycles ≤ t.maxCycles :=
  (ceiling_inv_run ops _ t ⟨hpos, le_refl 0, le_of_lt hpos⟩ hk h).2

/-- Witness for C2, amended: the scenario controller driven through one full
bounce and then given `setMaxCycles(1)`. -/
theorem cycles_within_maxCycles_witness :
    ((0 : Int) < 2 ∧
      respectsCeiling (construct 0 0 0 90 500 2000 2 3 2 1.5 1) demoLowerOps = true ∧
      runOps (construct 0 0 0 90 500 2000 2 3 2 1.5 1) demoLowerOps
        = some { demoMotor with isActive := true, cycles := 1, maxCycles := 1 }) ∧
    (0 ≤ ({ demoMotor with isActive := true, cycles := 1, maxCycles := 1 } : MovingMotor).cycles ∧
      ({ demoMotor with isActive := true, cycles := 1, maxCycles := 1 } : MovingMotor).cycles
        ≤ ({ demoMotor with isActive := true, cycles := 1, maxCycles := 1 } : MovingMotor).maxCycles)
    := by
  have hk : respectsCeiling (construct 0 0 0 90 500 2000 2 3 2 1.5 1) demoLowerOps = true := by
    norm_num [demoLowerOps, respectsCeiling, Op.apply, init, waitWhileMoving, update,
      checkArrival, startMovement, MovingMotor.setMaxCycles, construct]
  have hrun : runOps (construct 0 0 0 90 500 2000 2 3 2 1.5 1) demoLowerOps
      = some { demoMotor with isActive := true, cycles := 1, maxCycles := 1 } := by
    norm_num [demoLowerOps, demoMotor, runOps, Op.apply, init, waitWhileMoving, update,
      checkArrival, startMovement, MovingMotor.setMaxCycles, construct]
  exact ⟨⟨by norm_num, hk, hrun⟩,
    cycles_within_maxCycles 0 0 0 90 500 2000 2 3 2 1.5 1 demoLowerOps _ (by norm_num) hk hrun⟩


/-! ## The bounce scenario -/

/-- C1, evaluated on the spec scenario (start 0, end 90, `maxBounces = 2`,
bound, `update(true)` reading 90, 0, 90, 0, ... while the driver reports
motion): after the four ticks 90, 0, 90, 0 the controller has `cycles = 2`
but `cycleComplete` is still false, and the fourth tick sent the up-profile
limits and a move to 90, not `stop`; the run is complete only after the
sixth tick, the third arrival at the start angle, which sends `stop`. -/
theorem bounce_scenario_completes_one_pair_late :
    (bounceTicks (fun _ => true) 4 0 demoMotor).cycles = 2 ∧
    (bounceTicks (fun _ => true) 4 0 demoMotor).cycleComplete = false ∧
    ((bounceTicks (fun _ => true) 3 0 demoMotor).update true 0 true).2
      = [StepperCall.setMaxVelocity 1500, StepperCall.setMaxAcceleration 4000,
         StepperCall.enableClosedLoop, StepperCall.moveToAngle 90] ∧
    (bounceTicks (fun _ => true) 5 0 demoMotor).cycleComplete = false ∧
    (bounceTicks (fun _ => true) 6 0 demoMotor).cycleComplete = true ∧
    (bounceTicks (fun _ => true) 6 0 demoMotor).cycles = 2 ∧
    ((bounceTicks (fun _ => true) 5 0 demoMotor).update true 0 true).2
      = [StepperCall.stop] := by
  norm_num [bounceTicks, bounceAngle, demoMotor, update, checkArrival, startMovement,
    construct]


/-! ## The unbound controller -/

/-- C11: on a controller with no driver bound, `update(true)` and
`update(false)` make no call on the driver and return the controller state
unchanged in every field (`cycles`, `direction`, `cycleComplete` and
`isActive` included), whatever angle and motor state a driver would have
reported. -/
theorem update_unbound_noop (s : MovingMotor) (activate : Bool) (currentAngle : ℚ)
    (motorState : Bool) (hb : s.stepperPtr = false) :
    s.update activate currentAngle motorState = (s, []) :=
  update_unbound s activate currentAngle motorState hb

/-- Witness for C11: `update(true)` and `update(false)` on the scenario
controller before `init`. -/
theorem update_unbound_noop_witness :
    demoUnbound.stepperPtr = false ∧
    demoUnbound.update true 90 false = (demoUnbound, []) ∧
    demoUnbound.update false 90 false = (demoUnbound, []) :=
  ⟨rfl, update_unbound_noop demoUnbound true 90 false rfl,
    update_unbound_noop demoUnbound false 90 false rfl⟩

/-- C12 as stated fails: on the scenario controller before `init` (no driver
bound) `setMaxCycles(5)` and `setUpVelocityMultiplier(2)` change the state. -/
theorem unbound_setters_still_store :
    demoUnbound.stepperPtr = false ∧
    demoUnbound.maxCycles = 2 ∧ (demoUnbound.setMaxCycles 5).maxCycles = 5 ∧
    demoUnbound.setMaxCycles 5 ≠ demoUnbound ∧
    demoUnbound.upVelocityMultiplier = 3 ∧
    (demoUnbound.setUpVelocityMultiplier 2).upVelocityMultiplier = 2 ∧
    demoUnbound.setUpVelocityMultiplier 2 ≠ demoUnbound := by
  have h1 : (demoUnbound.setMaxCycles 5).maxCycles = 5 := by
    norm_num [MovingMotor.setMaxCycles]
  have h2 : demoUnbound.maxCycles = 2 := rfl
  have h3 : (demoUnbound.setUpVelocityMultiplier 2).upVelocityMultiplier = 2 := by
    norm_num [MovingMotor.setUpVelocityMultiplier]
  have h4 : demoUnbound.upVelocityMultiplier = 3 := rfl
  refine ⟨rfl, h2, h1, fun h => ?_, h4, h3, fun h => ?_⟩
  · rw [h, h2] at h1; norm_num at h1
  · rw [h, h4] at h3; norm_num at h3

/-- C12, amended: on a controller with no driver bound, `update`, `reset`,
`setStartPosition` (captureStart), `setEndPosition` (captureEnd), `goToStart`,
`goToEnd`, `setMaxVelocity` and `setMaxAcceleration` return at once, leave the
state unchanged and make no driver call, and so do `setMaxCycles` and the four
multiplier setters when their argument is not positive; with a positive
argument these five setters make no driver call but store the argument in
their field; `getCurrentAngle` returns 0. -/
theorem unbound_calls (s : MovingMotor) (hb : s.stepperPtr = false) :
    (∀ (activate : Bool) (a : ℚ) (m : Bool), s.update activate a m = (s, [])) ∧
    (∀ motorStates, s.reset motorStates = some (s, [])) ∧
    (∀ a, s.setStartPosition a = (s, [])) ∧
    (∀ a, s.setEndPosition a = (s, [])) ∧
    (∀ motorStates, s.goToStart motorStates = some (s, [])) ∧
    (∀ motorStates, s.goToEnd motorStates = some (s, [])) ∧
    (∀ v, s.setMaxVelocity v = (s, [])) ∧
    (∀ v, s.setMaxAcceleration v = (s, [])) ∧
    (∀ n, (Op.setMaxCycles n).apply s
        = some (if 0 < n then { s with maxCycles := n } else s, [])) ∧
    (∀ x, (Op.setUpVelocityMultiplier x).apply s
        = some (if 0 < x then { s with upVelocityMultiplier := x } else s, [])) ∧
    (∀ x, (Op.setUpAccelerationMultiplier x).apply s
        = some (if 0 < x then { s with upAccelMultiplier := x } else s, [])) ∧
    (∀ x, (Op.setDownVelocityMultiplier x).apply s
        = some (if 0 < x then { s with downVelocityMultiplier := x } else s, [])) ∧
    (∀ x, (Op.setDownAccelerationMultiplier x).apply s
        = some (if 0 < x then { s with downAccelMultiplier := x } else s, [])) ∧
    (∀ a, s.getCurrentAngle a = 0) := by
  refine ⟨fun activate a m => update_unbound s activate a m hb, fun _ => ?_, fun _ => ?_,
    fun _ => ?_, fun _ => ?_, fun _ => ?_, fun _ => ?_, fun _ => ?_, fun _ => rfl,
    fun _ => rfl, fun _ => rfl, fun _ => rfl, fun _ => rfl, fun _ => ?_⟩
  · unfold reset; rw [if_pos hb]
  · unfold setStartPosition; rw [if_pos hb]
  · unfold setEndPosition; rw [if_pos hb]
  · unfold goToStart; rw [if_pos hb]
  · unfold goToEnd; rw [if_pos hb]
  · unfold MovingMotor.setMaxVelocity; rw [if_pos hb]
  · unfold MovingMotor.setMaxAcceleration; rw [if_pos hb]
  · unfold getCurrentAngle; rw [if_pos hb]; norm_num

/-- Witness for C12, amended: on the scenario controller before `init`, `reset`
and `setMaxVelocity(900)` change nothing and the angle accessor returns 0. -/
theorem unbound_calls_witness :
    demoUnbound.stepperPtr = false ∧
    demoUnbound.reset [true, false] = some (demoUnbound, []) ∧
    demoUnbound.setMaxVelocity 900 = (demoUnbound, []) ∧
    demoUnbound.getCurrentAngle 45 = 0 :=
  ⟨rfl, (unbound_calls demoUnbound rfl).2.1 [true, false],
    (unbound_calls demoUnbound rfl).2.2.2.2.2.2.1 900,
    (unbound_calls demoUnbound rfl).2.2.2.2.2.2.2.2.2.2.2.2.2 45⟩


/-! ## The validating setters -/

/-- C13: each of `setMaxCycles`, `setUpVelocityMultiplier`,
`setUpAccelerationMultiplier`, `setDownVelocityMultiplier` and
`setDownAccelerationMultiplier`, called with an argument `v ≤ 0`, returns the
state unchanged; called with `v > 0` it stores `v` in its field and keeps
every other field.  Hence, when `maxCycles` and the four multipliers are
positive before such a call, they are positive after it. -/
theorem setters_validate (s : MovingMotor) :
    (∀ n : Int, (n ≤ 0 → s.setMaxCycles n = s) ∧
      (0 < n → s.setMaxCycles n = { s with maxCycles := n })) ∧
    (∀ x : ℚ, (x ≤ 0 → s.setUpVelocityMultiplier x = s) ∧
      (0 < x → s.setUpVelocityMultiplier x = { s with upVelocityMultiplier := x })) ∧
    (∀ x : ℚ, (x ≤ 0 → s.setUpAccelerationMultiplier x = s) ∧
      (0 < x → s.setUpAccelerationMultiplier x = { s with upAccelMultiplier := x })) ∧
    (∀ x : ℚ, (x ≤ 0 → s.setDownVelocityMultiplier x = s) ∧
      (0 < x → s.setDownVelocityMultiplier x = { s with downVelocityMultiplier := x })) ∧
    (∀ x : ℚ, (x ≤ 0 → s.setDownAccelerationMultiplier x = s) ∧
      (0 < x → s.setDownAccelerationMultiplier x = { s with downAccelMultiplier := x })) ∧
    ((0 < s.maxCycles ∧ 0 < s.upVelocityMultiplier ∧ 0 < s.upAccelMultiplier ∧
        0 < s.downVelocityMultiplier ∧ 0 < s.downAccelMultiplier) →
      ∀ (n : Int) (x : ℚ) (t : MovingMotor),
        (t = s.setMaxCycles n ∨ t = s.setUpVelocityMultiplier x ∨
          t = s.setUpAccelerationMultiplier x ∨ t = s.setDownVelocityMultiplier x ∨
          t = s.setDownAccelerationMultiplier x) →
        0 < t.maxCycles ∧ 0 < t.upVelocityMultiplier ∧ 0 < t.upAccelMultiplier ∧
          0 < t.downVelocityMultiplier ∧ 0 < t.downAccelMultiplier) := by
  refine ⟨fun n => ⟨fun h => ?_, fun h => ?_⟩, fun x => ⟨fun h => ?_, fun h => ?_⟩,
    fun x => ⟨fun h => ?_, fun h => ?_⟩, fun x => ⟨fun h => ?_, fun h => ?_⟩,
    fun x => ⟨fun h => ?_, fun h => ?_⟩, ?_⟩
  · unfold MovingMotor.setMaxCycles; rw [if_neg (not_lt.mpr h)]
  · unfold MovingMotor.setMaxCycles; rw [if_pos h]
  · unfold MovingMotor.setUpVelocityMultiplier; rw [if_neg (not_lt.mpr h)]
  · unfold MovingMotor.setUpVelocityMultiplier; rw [if_pos h]
  · unfold MovingMotor.setUpAccelerationMultiplier; rw [if_neg (not_lt.mpr h)]
  · unfold MovingMotor.setUpAccelerationMultiplier; rw [if_pos h]
  · unfold MovingMotor.setDownVelocityMultiplier; rw [if_neg (not_lt.mpr h)]
  · unfold MovingMotor.setDownVelocityMultiplier; rw [if_pos h]
  · unfold MovingMotor.setDownAccelerationMultiplier; rw [if_neg (not_lt.mpr h)]
  · unfold MovingMotor.setDownAccelerationMultiplier; rw [if_pos h]
  · rintro ⟨h1, h2, h3, h4, h5⟩ n x t ht
    rcases ht with rfl | rfl | rfl | rfl | rfl
    · unfold MovingMotor.setMaxCycles
      split_ifs with h
      · exact ⟨h, h2, h3, h4, h5⟩
      · exact ⟨h1, h2, h3, h4, h5⟩
    · unfold MovingMotor.setUpVelocityMultiplier
      split_ifs with h
      · exact ⟨h1, h, h3, h4, h5⟩
      · exact ⟨h1, h2, h3, h4, h5⟩
    · unfold MovingMotor.setUpAccelerationMultiplier
      split_ifs with h
      · exact ⟨h1, h2, h, h4, h5⟩
      · exact ⟨h1, h2, h3, h4, h5⟩
    · unfold MovingMotor.setDownVelocityMultiplier
      split_ifs with h
      · exact ⟨h1, h2, h3, h, h5⟩
      · exact ⟨h1, h2, h3, h4, h5⟩
    · unfold MovingMotor.setDownAccelerationMultiplier
      split_ifs with h
      · exact ⟨h1, h2, h3, h4, h⟩
      · exact ⟨h1, h2, h3, h4, h5⟩

/-- Witness for C13: on the scenario controller `setMaxCycles(0)` and
`setDownVelocityMultiplier(-1)` are rejected, `setMaxCycles(7)` and
`setDownVelocityMultiplier(2.5)` are stored, and the configuration stays
positive after `setUpAccelerationMultiplier(-4)`. -/
theorem setters_validate_witness :
    demoMotor.setMaxCycles 0 = demoMotor ∧
    demoMotor.setMaxCycles 7 = { demoMotor with maxCycles := 7 } ∧
    demoMotor.setDownVelocityMultiplier (-1) = demoMotor ∧
    demoMotor.setDownVelocityMultiplier 2.5
      = { demoMotor with downVelocityMultiplier := 2.5 } ∧
    (0 < demoMotor.maxCycles ∧ 0 < demoMotor.upVelocityMultiplier ∧
      0 < demoMotor.upAccelMultiplier ∧ 0 < demoMotor.downVelocityMultiplier ∧
      0 < demoMotor.downAccelMultiplier) ∧
    (0 < (demoMotor.setUpAccelerationMultiplier (-4)).maxCycles ∧
      0 < (demoMotor.setUpAccelerationMultiplier (-4)).upVelocityMultiplier ∧
      0 < (demoMotor.setUpAccelerationMultiplier (-4)).upAccelMultiplier ∧
      0 < (demoMotor.setUpAccelerationMultiplier (-4)).downVelocityMultiplier ∧
      0 < (demoMotor.setUpAccelerationMultiplier (-4)).downAccelMultiplier) := by
  have hpos : 0 < demoMotor.maxCycles ∧ 0 < demoMotor.upVelocityMultiplier ∧
      0 < demoMotor.upAccelMultiplier ∧ 0 < demoMotor.downVelocityMultiplier ∧
      0 < demoMotor.downAccelMultiplier := by
    norm_num [demoMotor, construct]
  exact ⟨((setters_validate demoMotor).1 0).1 (le_refl 0),
    ((setters_validate demoMotor).1 7).2 (by norm_num),
    ((setters_validate demoMotor).2.2.2.1 (-1)).1 (by norm_num),
    ((setters_validate demoMotor).2.2.2.1 2.5).2 (by norm_num),
    hpos,
    (setters_validate demoMotor).2.2.2.2.2 hpos 0 (-4) _ (Or.inr (Or.inr (Or.inl rfl)))⟩


/-! ## Reset and manual positioning -/

/-- C14: on every bound controller (complete or not), when the driver
eventually answers that it is not moving, `reset()` returns with
`direction = 1` (toward end), `cycles = 0`, `cycleComplete = false` and
`position = 0`, every other field unchanged (`startAngle`, `endAngle`, the
four multipliers, `maxVelocity`, `maxAcceleration`, `maxCycles`), having sent
the driver the unmultiplied `maxVelocity` and `maxAcceleration`, then
`enableClosedLoop` and the move to `startAngle`. -/
theorem reset_restarts (s : MovingMotor) (motorStates : List Bool)
    (hb : s.stepperPtr = true) (hw : false ∈ motorStates) :
    s.reset motorStates
      = some ({ s with direction := 1, cycles := 0, cycleComplete := false, position := 0 },
          [StepperCall.setMaxVelocity s.maxVelocity,
           StepperCall.setMaxAcceleration s.maxAcceleration,
           StepperCall.enableClosedLoop,
           StepperCall.moveToAngle s.startAngle]) := by
  unfold reset goToStart
  simp [hb, waitWhileMoving_of_mem motorStates hw]

/-- Witness for C14: `reset()` on the completed scenario controller, the
driver reporting motion twice and then rest. -/
theorem reset_restarts_witness :
    (demoDone.stepperPtr = true ∧ false ∈ [true, true, false]) ∧
    demoDone.reset [true, true, false]
      = some ({ demoDone with direction := 1, cycles := 0, cycleComplete := false,
                              position := 0 },
          [StepperCall.setMaxVelocity demoDone.maxVelocity,
           StepperCall.setMaxAcceleration demoDone.maxAcceleration,
           StepperCall.enableClosedLoop,
           StepperCall.moveToAngle demoDone.startAngle]) :=
  ⟨⟨rfl, by simp⟩, reset_restarts demoDone [true, true, false] rfl (by simp)⟩

/-- C18 as stated fails: the scenario controller (start angle 0) captures as
end angle the `float` nearest to 1.8, that is 7549747/4194304.  `goToEnd` then
stores `position = 256`, because the `float` product of that angle and 51200
rounds up to 92160, whereas `(endAngle - startAngle) * (200 * 256) / 360`
truncated toward zero is 255. -/
theorem goToEnd_position_rounded :
    binary32 1.8 = 7549747 / 4194304 ∧
    demoCaptured = (demoMotor.setEndPosition (7549747 / 4194304)).1 ∧
    demoCaptured.goToEnd [false]
      = some ({ demoCaptured with position := 256 },
          [StepperCall.enableClosedLoop, StepperCall.moveToAngle demoCaptured.endAngle]) ∧
    (if 0 ≤ (demoCaptured.endAngle - demoCaptured.startAngle) * (200 * 256) / 360
      then ⌊(demoCaptured.endAngle - demoCaptured.startAngle) * (200 * 256) / 360⌋
      else ⌈(demoCaptured.endAngle - demoCaptured.startAngle) * (200 * 256) / 360⌉) = 255 := by
  have h18 : binary32 1.8 = 7549747 / 4194304 := by
    unfold binary32
    rw [roundFloat_of_near_pos 24 (-126) 0 1.8 15099494 (by norm_num) (by norm_num)
      (by norm_num) (by norm_num) (by norm_num [abs_lt])]
    norm_num
  have hd : demoCaptured.endAngle - demoCaptured.startAngle = 7549747 / 4194304 := by
    norm_num [demoCaptured, demoMotor, construct]
  have hsub : binary32 (7549747 / 4194304) = 7549747 / 4194304 := by
    unfold binary32
    rw [roundFloat_of_near_pos 24 (-126) 0 (7549747 / 4194304) 15099494 (by norm_num)
      (by norm_num) (by norm_num) (by norm_num) (by norm_num [abs_lt])]
    norm_num
  have hprod : binary32 (7549747 / 4194304 * (STEPSPERREV * 256)) = 92160 := by
    unfold binary32 STEPSPERREV
    rw [roundFloat_of_near_pos 24 (-126) 16 _ 11796480 (by norm_num) (by norm_num)
      (by norm_num) (by norm_num) (by norm_num [abs_lt])]
    norm_num
  have hquot : binary64 (92160 / 360) = 256 := by
    have h : (92160 : ℚ) / 360 = ((256 : Int) : ℚ) := by norm_num
    unfold binary64
    rw [h, roundFloat_intCast 53 (-1022) 256 (by norm_num) (by norm_num)]
    norm_num
  have hcast : castInt (timesRES (binary32 (demoCaptured.endAngle - demoCaptured.startAngle)))
      = some 256 := by
    rw [hd, hsub]
    unfold timesRES
    rw [hprod, hquot]
    have h : (256 : ℚ) = ((256 : Int) : ℚ) := by norm_num
    rw [h, castInt_of_abs_lt _ (by norm_num), truncate_intCast]
  refine ⟨h18, ?_, goToEnd_of_castInt demoCaptured [false] 256 rfl (by simp) hcast, ?_⟩
  · rfl
  · rw [hd]
    rw [if_pos (by norm_num), Int.floor_eq_iff]
    constructor <;> norm_num

/-- C18, amended: on a bound controller, `setStartPosition` (captureStart)
stores the angle read from the driver in `startAngle`, sets `position` to 0
and keeps every other field; `setEndPosition` (captureEnd) stores the angle
read in `endAngle` and keeps every other field, `position` included;
`goToEnd`, when the driver eventually answers that it is not moving, keeps
every field but `position`, which it sets to the value the code computes in
floating point, truncated toward zero (floor when non-negative, ceiling when
negative), provided that integer fits the 32-bit `int`: the computed value is
the `float` difference `endAngle - startAngle`, times 51200 rounded to
`float`, divided by 360 and rounded to `double`.  When `startAngle` and
`endAngle` are whole numbers at most 327 apart, no rounding occurs and
`position` is `(endAngle - startAngle) * (200 * 256) / 360` truncated toward
zero. -/
theorem position_bookkeeping (s : MovingMotor) (hb : s.stepperPtr = true) :
    (∀ currentAngle : ℚ,
      (s.setStartPosition currentAngle).1
        = { s with startAngle := currentAngle, position := 0 }) ∧
    (∀ currentAngle : ℚ,
      (s.setEndPosition currentAngle).1 = { s with endAngle := currentAngle }) ∧
    (∀ motorStates : List Bool, false ∈ motorStates →
      (-2 ^ 31 ≤ (if 0 ≤ timesRES (binary32 (s.endAngle - s.startAngle))
          then ⌊timesRES (binary32 (s.endAngle - s.startAngle))⌋
          else ⌈timesRES (binary32 (s.endAngle - s.startAngle))⌉) ∧
        (if 0 ≤ timesRES (binary32 (s.endAngle - s.startAngle))
          then ⌊timesRES (binary32 (s.endAngle - s.startAngle))⌋
          else ⌈timesRES (binary32 (s.endAngle - s.startAngle))⌉) ≤ 2 ^ 31 - 1) →
      s.goToEnd motorStates
        = some ({ s with position :=
                    if 0 ≤ timesRES (binary32 (s.endAngle - s.startAngle))
                    then ⌊timesRES (binary32 (s.endAngle - s.startAngle))⌋
                    else ⌈timesRES (binary32 (s.endAngle - s.startAngle))⌉ },
            [StepperCall.enableClosedLoop, StepperCall.moveToAngle s.endAngle])) ∧
    (∀ (motorStates : List Bool) (a b : Int), false ∈ motorStates →
      s.startAngle = a → s.endAngle = b → |b - a| ≤ 327 →
      s.goToEnd motorStates
        = some ({ s with position :=
                    if 0 ≤ (s.endAngle - s.startAngle) * (200 * 256) / 360
                    then ⌊(s.endAngle - s.startAngle) * (200 * 256) / 360⌋
                    else ⌈(s.endAngle - s.startAngle) * (200 * 256) / 360⌉ },
            [StepperCall.enableClosedLoop, StepperCall.moveToAngle s.endAngle])) := by
  have hb0 : ¬ s.stepperPtr = false := by simp [hb]
  refine ⟨fun a => ?_, fun a => ?_, fun motorStates hw hrange => ?_,
    fun motorStates a b hw ha hbb hab => ?_⟩
  · unfold setStartPosition; rw [if_neg hb0]
  · unfold setEndPosition; rw [if_neg hb0]
  · rw [← truncate_eq] at hrange ⊢
    apply goToEnd_of_castInt s motorStates _ hb hw
    unfold castInt
    rw [if_pos hrange]
  · have hdiff : s.endAngle - s.startAngle = ((b - a : Int) : ℚ) := by
      rw [ha, hbb]; push_cast; ring
    rw [← truncate_eq]
    apply goToEnd_of_castInt s motorStates _ hb hw
    rw [hdiff]
    have h32 : binary32 ((b - a : Int) : ℚ) = ((b - a : Int) : ℚ) := by
      unfold binary32
      apply roundFloat_intCast _ _ _ (by norm_num)
      have : |b - a| < 2 ^ 24 := lt_of_le_of_lt hab (by norm_num)
      exact this
    rw [h32]
    exact castInt_timesRES_intCast (b - a) hab

/-- Witness for C18, amended: on the scenario controller (start 0, end 90)
`goToEnd` returns with `position = 12800`; capturing the angle 30 as start
sets `startAngle = 30` and `position = 0`. -/
theorem position_bookkeeping_witness :
    demoMotor.stepperPtr = true ∧
    (demoMotor.setStartPosition 30).1 = { demoMotor with startAngle := 30, position := 0 } ∧
    (demoMotor.setEndPosition 60).1 = { demoMotor with endAngle := 60 } ∧
    demoMotor.goToEnd [true, false]
      = some ({ demoMotor with position := 12800 },
          [StepperCall.enableClosedLoop, StepperCall.moveToAngle demoMotor.endAngle]) := by
  refine ⟨rfl, (position_bookkeeping demoMotor rfl).1 30,
    (position_bookkeeping demoMotor rfl).2.1 60, ?_⟩
  have h := (position_bookkeeping demoMotor rfl).2.2.2 [true, false] 0 90 (by simp)
    (by norm_num [demoMotor, construct]) (by norm_num [demoMotor, construct])
    (by norm_num)
  rw [h]
  have hx : (demoMotor.endAngle - demoMotor.startAngle) * (200 * 256) / 360 = 12800 := by
    norm_num [demoMotor, construct]
  rw [hx]
  norm_num

/-! ## Stall recovery -/

/-- C15: on a bound, non-complete controller, an `update(true)` tick that reads
an angle at distance 0.5 or more from the target of the current direction
changes no field but `isActive` (so `direction`, `cycles` and `cycleComplete`
are unchanged); when the driver answers that it is not moving, the tick sends
the limits of the current direction (up-profile when `direction > 0`,
down-profile otherwise), `enableClosedLoop` and the move to that direction's
target (`endAngle`, resp. `startAngle`); when the driver answers that it is
moving, the tick makes no call at all. -/
theorem update_stall_recovery (s : MovingMotor) (currentAngle : ℚ)
    (hb : s.stepperPtr = true) (hc : s.cycleComplete = false)
    (ha : 0.5 ≤ |currentAngle - s.targetAngle|) :
    s.update true currentAngle false
      = ({ s with isActive := true },
          if 0 < s.direction then
            [StepperCall.setMaxVelocity (s.maxVelocity * s.upVelocityMultiplier),
             StepperCall.setMaxAcceleration (s.maxAcceleration * s.upAccelMultiplier),
             StepperCall.enableClosedLoop,
             StepperCall.moveToAngle s.endAngle]
          else
            [StepperCall.setMaxVelocity (s.maxVelocity * s.downVelocityMultiplier),
             StepperCall.setMaxAcceleration (s.maxAcceleration * s.downAccelMultiplier),
             StepperCall.enableClosedLoop,
             StepperCall.moveToAngle s.startAngle]) ∧
    s.update true currentAngle true = ({ s with isActive := true }, []) := by
  constructor
  · rw [update_no_arrival s currentAngle false hb hc (not_lt.mpr ha)]
    unfold startMovement targetAngle
    by_cases hd : 0 < s.direction
    · simp [hd]
    · simp [hd]
  · rw [update_no_arrival s currentAngle true hb hc (not_lt.mpr ha)]
    simp

/-- Witness for C15: the scenario controller heading for the end angle 90
reads the angle 45. -/
theorem update_stall_recovery_witness :
    (demoMotor.stepperPtr = true ∧ demoMotor.cycleComplete = false ∧
      0.5 ≤ |(45 : ℚ) - demoMotor.targetAngle|) ∧
    demoMotor.update true 45 false
      = ({ demoMotor with isActive := true },
          [StepperCall.setMaxVelocity 1500, StepperCall.setMaxAcceleration 4000,
           StepperCall.enableClosedLoop, StepperCall.moveToAngle 90]) ∧
    demoMotor.update true 45 true = ({ demoMotor with isActive := true }, []) := by
  have ha : 0.5 ≤ |(45 : ℚ) - demoMotor.targetAngle| := by
    norm_num [targetAngle, demoMotor, construct, le_abs]
  have h := update_stall_recovery demoMotor 45 rfl rfl ha
  refine ⟨⟨rfl, rfl, ha⟩, ?_, h.2⟩
  rw [h.1]
  norm_num [demoMotor, construct]


/-! ## Commands per tick -/

/-- C16, evaluated on the scenario controller heading for the end angle 90: an
`update(true)` call that reads the angle 90 while the driver answers that it
is not moving sends the down-profile and the move to 0 from the arrival
branch and then the same calls again from the restart branch, two motion
commands in one call. -/
theorem update_sends_move_twice :
    demoMotor.stepperPtr = true ∧ demoMotor.cycleComplete = false ∧
    (demoMotor.update true 90 false).2
      = [StepperCall.setMaxVelocity 750, StepperCall.setMaxAcceleration 2000,
         StepperCall.enableClosedLoop, StepperCall.moveToAngle 0,
         StepperCall.setMaxVelocity 750, StepperCall.setMaxAcceleration 2000,
         StepperCall.enableClosedLoop, StepperCall.moveToAngle 0] ∧
    motionCount (demoMotor.update true 90 false).2 = 2 := by
  have h : (demoMotor.update true 90 false).2
      = [StepperCall.setMaxVelocity 750, StepperCall.setMaxAcceleration 2000,
         StepperCall.enableClosedLoop, StepperCall.moveToAngle 0,
         StepperCall.setMaxVelocity 750, StepperCall.setMaxAcceleration 2000,
         StepperCall.enableClosedLoop, StepperCall.moveToAngle 0] := by
    norm_num [demoMotor, update, checkArrival, startMovement, targetAngle, construct]
  refine ⟨rfl, rfl, h, ?_⟩
  rw [h]
  simp [motionCount, StepperCall.isMotion]

/-- C17 as stated fails: the scenario controller heading for the end angle 90
reads the angle 45 on two consecutive `update(true)` calls while the driver
answers that it is not moving; no arrival is detected in either call, and
both calls send the move to 90. -/
theorem consecutive_ticks_repeat_move :
    demoMotor.stepperPtr = true ∧ demoMotor.cycleComplete = false ∧
    ¬ |(45 : ℚ) - demoMotor.targetAngle| < 0.5 ∧
    ¬ |(45 : ℚ) - (demoMotor.update true 45 false).1.targetAngle| < 0.5 ∧
    StepperCall.moveToAngle 90 ∈ (demoMotor.update true 45 false).2 ∧
    StepperCall.moveToAngle 90
      ∈ ((demoMotor.update true 45 false).1.update true 45 false).2 := by
  refine ⟨rfl, rfl, ?_, ?_, ?_, ?_⟩ <;>
    norm_num [demoMotor, update, checkArrival, startMovement, targetAngle, construct]

/-- C17, amended: on a bound, non-complete controller, when two consecutive
`update(true)` calls both send a move to the same target, then in the second
call an arrival was detected (the angle read was within 0.5 of the target of
the direction current at that call) or the driver answered that it was not
moving (the restart branch sent the move again). -/
theorem repeated_move_needs_arrival_or_idle (s : MovingMotor) (angle1 angle2 : ℚ)
    (motorState1 motorState2 : Bool) (target : ℚ)
    (_hb : s.stepperPtr = true) (_hc : s.cycleComplete = false)
    (_h1 : StepperCall.moveToAngle target ∈ (s.update true angle1 motorState1).2)
    (h2 : StepperCall.moveToAngle target
      ∈ ((s.update true angle1 motorState1).1.update true angle2 motorState2).2) :
    |angle2 - (s.update true angle1 motorState1).1.targetAngle| < 0.5 ∨
      motorState2 = false := by
  by_contra hcon
  push_neg at hcon
  obtain ⟨hfar, hm⟩ := hcon
  have hm1 : motorState2 = true := by simpa using hm
  subst hm1
  rw [update_quiet _ angle2 (not_lt.mpr hfar)] at h2
  cases h2

/-- Witness for C17, amended: the scenario controller reads 45 (driver idle:
the move to 90 is sent), then 45 again with the driver idle (the move to 90 is
sent again). -/
theorem repeated_move_needs_arrival_or_idle_witness :
    (demoMotor.stepperPtr = true ∧ demoMotor.cycleComplete = false ∧
      StepperCall.moveToAngle 90 ∈ (demoMotor.update true 45 false).2 ∧
      StepperCall.moveToAngle 90
        ∈ ((demoMotor.update true 45 false).1.update true 45 false).2) ∧
    (|(45 : ℚ) - (demoMotor.update true 45 false).1.targetAngle| < 0.5 ∨
      false = false) := by
  have h1 : StepperCall.moveToAngle 90 ∈ (demoMotor.update true 45 false).2 := by
    norm_num [demoMotor, update, checkArrival, startMovement, targetAngle, construct]
  have h2 : StepperCall.moveToAngle 90
      ∈ ((demoMotor.update true 45 false).1.update true 45 false).2 := by
    norm_num [demoMotor, update, checkArrival, startMovement, targetAngle, construct]
  exact ⟨⟨rfl, rfl, h1, h2⟩,
    repeated_move_needs_arrival_or_idle demoMotor 45 45 false false 90 rfl rfl h1 h2⟩


/-! ## Runs of `update(true)` ticks -/

/-- Ticks on a complete controller detect no arrival and keep the cycle
bookkeeping. -/
theorem runTicks_of_complete :
    ∀ (ticks : List (ℚ × Bool)) (u : MovingMotor), u.cycleComplete = true →
      (runTicks u ticks).cycleComplete = true ∧ (runTicks u ticks).cycles = u.cycles ∧
      (runTicks u ticks).maxCycles = u.maxCycles ∧
      countStartArrivals u ticks = 0 ∧ countEndArrivals u ticks = 0 := by
  intro ticks
  induction ticks with
  | nil => intro u hc; exact ⟨hc, rfl, rfl, rfl, rfl⟩
  | cons tick rest ih =>
      intro u hc
      obtain ⟨a, m⟩ := tick
      have hc1 : (u.update true a m).1.cycleComplete = true := by
        rw [update_cycleComplete, if_neg (fun h => by simp [hc] at h), hc]
      have hc2 : (u.update true a m).1.cycles = u.cycles := by
        rw [update_cycles, if_neg (fun h => by simp [hc] at h)]
      obtain ⟨h1, h2, h3, h4, h5⟩ := ih _ hc1
      simp only [runTicks, countStartArrivals, countEndArrivals]
      rw [h1, h2, h3, h4, h5, hc2, update_maxCycles]
      simp [detectsStartArrival, detectsEndArrival, hc]

/-- The five outcomes of an `update(true)` tick on a bound, non-complete
controller. -/
theorem tick_cases (u : MovingMotor) (a : ℚ) (m : Bool)
    (hb : u.stepperPtr = true) (hc : u.cycleComplete = false) :
    (0 < u.direction ∧ |a - u.endAngle| < 0.5 ∧
      (u.update true a m).1 = { u with isActive := true, direction := -1 }) ∨
    (0 < u.direction ∧ ¬ |a - u.endAngle| < 0.5 ∧
      (u.update true a m).1 = { u with isActive := true }) ∨
    (¬ 0 < u.direction ∧ |a - u.startAngle| < 0.5 ∧ u.cycles < u.maxCycles ∧
      (u.update true a m).1
        = { u with isActive := true, direction := 1, cycles := u.cycles + 1 }) ∨
    (¬ 0 < u.direction ∧ |a - u.startAngle| < 0.5 ∧ ¬ u.cycles < u.maxCycles ∧
      (u.update true a m).1 = { u with isActive := true, cycleComplete := true }) ∨
    (¬ 0 < u.direction ∧ ¬ |a - u.startAngle| < 0.5 ∧
      (u.update true a m).1 = { u with isActive := true }) := by
  have hnb : ¬ u.stepperPtr = false := by simp [hb]
  have hrun : true = true ∧ u.cycleComplete = false := ⟨rfl, hc⟩
  rw [update_state, if_neg hnb, if_pos hrun]
  by_cases hd : 0 < u.direction
  · by_cases ha : |a - u.endAngle| < 0.5
    · exact Or.inl ⟨hd, ha, by rw [checkArrival_at_end { u with isActive := true } a hd ha]⟩
    · exact Or.inr (Or.inl ⟨hd, ha, by rw [checkArrival_off_end { u with isActive := true } a hd ha]⟩)
  · by_cases ha : |a - u.startAngle| < 0.5
    · by_cases hn : u.cycles < u.maxCycles
      · exact Or.inr (Or.inr (Or.inl ⟨hd, ha, hn,
          by rw [checkArrival_at_start_more { u with isActive := true } a hd ha hn]⟩))
      · exact Or.inr (Or.inr (Or.inr (Or.inl ⟨hd, ha, hn,
          by rw [checkArrival_at_start_done { u with isActive := true } a hd ha hn]⟩)))
    · exact Or.inr (Or.inr (Or.inr (Or.inr ⟨hd, ha,
        by rw [checkArrival_off_start { u with isActive := true } a hd ha]⟩)))


/-- The bookkeeping of a run of `update(true)` ticks from a bound, non-complete
controller with `0 ≤ cycles ≤ maxCycles`: counted against the arrivals
detected. -/
theorem run_invariant :
    ∀ (ticks : List (ℚ × Bool)) (u : MovingMotor),
      u.stepperPtr = true → u.cycleComplete = false → 0 ≤ u.cycles →
      u.cycles ≤ u.maxCycles →
      (runTicks u ticks).maxCycles = u.maxCycles ∧
      (((runTicks u ticks).cycleComplete = true ∧
          u.cycles + (countStartArrivals u ticks : Int) = u.maxCycles + 1 ∧
          (runTicks u ticks).cycles = u.maxCycles ∧
          countEndArrivals u ticks + pendingReturn u = countStartArrivals u ticks) ∨
        ((runTicks u ticks).cycleComplete = false ∧
          (runTicks u ticks).stepperPtr = true ∧
          u.cycles + (countStartArrivals u ticks : Int) = (runTicks u ticks).cycles ∧
          (runTicks u ticks).cycles ≤ u.maxCycles ∧
          countEndArrivals u ticks + pendingReturn u
            = countStartArrivals u ticks + pendingReturn (runTicks u ticks))) := by
  intro ticks
  induction ticks with
  | nil =>
      intro u hb hc h0 hle
      refine ⟨rfl, Or.inr ⟨hc, hb, ?_, hle, ?_⟩⟩
      · simp [countStartArrivals, runTicks]
      · simp [countStartArrivals, countEndArrivals, runTicks]
  | cons tick rest ih =>
      intro u hb hc h0 hle
      obtain ⟨a, m⟩ := tick
      simp only [runTicks, countStartArrivals, countEndArrivals]
      rcases tick_cases u a m hb hc with ⟨hd, ha, hu⟩ | ⟨hd, ha, hu⟩ | ⟨hd, ha, hn, hu⟩ |
        ⟨hd, ha, hn, hu⟩ | ⟨hd, ha, hu⟩
      · have hS : detectsStartArrival u a = false := by simp [detectsStartArrival, hd]
        have hE : detectsEndArrival u a = true := by
          simp [detectsEndArrival, hb, hc, hd, ha]
        have hp : pendingReturn u = 0 := by simp [pendingReturn, hd]
        have hp1 : pendingReturn { u with isActive := true, direction := -1 } = 1 := by
          simp [pendingReturn]
        rw [hu, hS, hE]
        obtain ⟨hm, hor⟩ := ih { u with isActive := true, direction := -1 } hb hc h0 hle
        refine ⟨hm, ?_⟩
        rw [hp1] at hor
        rw [hp]
        rcases hor with ⟨h1, h2, h3, h4⟩ | ⟨h1, h2, h3, h4, h5⟩
        · exact Or.inl ⟨h1, by simpa using h2, h3, by simp at h4 ⊢; omega⟩
        · exact Or.inr ⟨h1, h2, by simpa using h3, h4, by simp at h5 ⊢; omega⟩
      · have hS : detectsStartArrival u a = false := by simp [detectsStartArrival, hd]
        have hE : detectsEndArrival u a = false := by simp [detectsEndArrival, ha]
        have hp1 : pendingReturn { u with isActive := true } = pendingReturn u := rfl
        rw [hu, hS, hE]
        obtain ⟨hm, hor⟩ := ih { u with isActive := true } hb hc h0 hle
        refine ⟨hm, ?_⟩
        rw [hp1] at hor
        rcases hor with ⟨h1, h2, h3, h4⟩ | ⟨h1, h2, h3, h4, h5⟩
        · exact Or.inl ⟨h1, by simpa using h2, h3, by simp at h4 ⊢; omega⟩
        · exact Or.inr ⟨h1, h2, by simpa using h3, h4, by simp at h5 ⊢; omega⟩
      · have hS : detectsStartArrival u a = true := by
          simp [detectsStartArrival, hb, hc, hd, ha]
        have hE : detectsEndArrival u a = false := by simp [detectsEndArrival, hd]
        have hp : pendingReturn u = 1 := by simp [pendingReturn, hd]
        have hp1 : pendingReturn
            { u with isActive := true, direction := 1, cycles := u.cycles + 1 } = 0 := by
          simp [pendingReturn]
        rw [hu, hS, hE]
        obtain ⟨hm, hor⟩ := ih
          { u with isActive := true, direction := 1, cycles := u.cycles + 1 } hb hc
          (by show 0 ≤ u.cycles + 1; omega) (by show u.cycles + 1 ≤ u.maxCycles; omega)
        refine ⟨hm, ?_⟩
        rw [hp1] at hor
        rw [hp]
        rcases hor with ⟨h1, h2, h3, h4⟩ | ⟨h1, h2, h3, h4, h5⟩
        · refine Or.inl ⟨h1, ?_, h3, by simp at h4 ⊢; omega⟩
          simp only [if_true, Nat.cast_add, Nat.cast_one] at h2 ⊢
          omega
        · refine Or.inr ⟨h1, h2, ?_, h4, by simp at h5 ⊢; omega⟩
          simp only [if_true, Nat.cast_add, Nat.cast_one] at h3 ⊢
          omega
      · have hS : detectsStartArrival u a = true := by
          simp [detectsStartArrival, hb, hc, hd, ha]
        have hE : detectsEndArrival u a = false := by simp [detectsEndArrival, hd]
        have hp : pendingReturn u = 1 := by simp [pendingReturn, hd]
        rw [hu, hS, hE, hp]
        obtain ⟨h1, h2, h3, h4, h5⟩ :=
          runTicks_of_complete rest { u with isActive := true, cycleComplete := true } rfl
        refine ⟨h3, Or.inl ⟨h1, ?_, ?_, ?_⟩⟩
        · rw [h4]; simp; omega
        · rw [h2]; show u.cycles = u.maxCycles; omega
        · rw [h4, h5]; simp
      · have hS : detectsStartArrival u a = false := by simp [detectsStartArrival, ha]
        have hE : detectsEndArrival u a = false := by simp [detectsEndArrival, hd]
        have hp1 : pendingReturn { u with isActive := true } = pendingReturn u := rfl
        rw [hu, hS, hE]
        obtain ⟨hm, hor⟩ := ih { u with isActive := true } hb hc h0 hle
        refine ⟨hm, ?_⟩
        rw [hp1] at hor
        rcases hor with ⟨h1, h2, h3, h4⟩ | ⟨h1, h2, h3, h4, h5⟩
        · exact Or.inl ⟨h1, by simpa using h2, h3, by simp at h4 ⊢; omega⟩
        · exact Or.inr ⟨h1, h2, by simpa using h3, h4, by simp at h5 ⊢; omega⟩


/-- The counting tick: back at the start angle with a cycle left to count. -/
theorem update_at_start_more (s : MovingMotor) (a : ℚ) (m : Bool)
    (hb : s.stepperPtr = true) (hc : s.cycleComplete = false)
    (hd : ¬ 0 < s.direction) (ha : |a - s.startAngle| < 0.5)
    (hn : s.cycles < s.maxCycles) :
    (s.update true a m).1
        = { s with isActive := true, direction := 1, cycles := s.cycles + 1 } ∧
    StepperCall.moveToAngle s.endAngle ∈ (s.update true a m).2 := by
  rw [update_running s a m hb hc,
    checkArrival_at_start_more { s with isActive := true } a hd ha hn]
  cases m <;> norm_num [startMovement, targetAngle, hc]

/-! ## Counting the moves commanded in a run -/

/-- The count of moves to a target distributes over concatenation. -/
theorem movesTo_append (target : ℚ) (l1 l2 : List StepperCall) :
    movesTo target (l1 ++ l2) = movesTo target l1 + movesTo target l2 := by
  induction l1 with
  | nil => simp [movesTo]
  | cons c rest ih =>
      cases c <;> simp [movesTo, ih, Nat.add_assoc]

/-- The whole result of an arrival tick at the end angle. -/
theorem update_at_end_full (s : MovingMotor) (a : ℚ) (m : Bool)
    (hb : s.stepperPtr = true) (hc : s.cycleComplete = false)
    (hd : 0 < s.direction) (ha : |a - s.endAngle| < 0.5) :
    s.update true a m
      = ({ s with isActive := true, direction := -1 },
          [StepperCall.setMaxVelocity (s.maxVelocity * s.downVelocityMultiplier),
           StepperCall.setMaxAcceleration (s.maxAcceleration * s.downAccelMultiplier),
           StepperCall.enableClosedLoop,
           StepperCall.moveToAngle s.startAngle]
          ++ (if m = true then []
              else [StepperCall.setMaxVelocity (s.maxVelocity * s.downVelocityMultiplier),
                    StepperCall.setMaxAcceleration (s.maxAcceleration * s.downAccelMultiplier),
                    StepperCall.enableClosedLoop,
                    StepperCall.moveToAngle s.startAngle])) := by
  rw [update_running s a m hb hc, checkArrival_at_end { s with isActive := true } a hd ha]
  cases m <;> norm_num [startMovement, targetAngle, hc]

/-- The whole result of a counting arrival tick at the start angle. -/
theorem update_at_start_more_full (s : MovingMotor) (a : ℚ) (m : Bool)
    (hb : s.stepperPtr = true) (hc : s.cycleComplete = false)
    (hd : ¬ 0 < s.direction) (ha : |a - s.startAngle| < 0.5)
    (hn : s.cycles < s.maxCycles) :
    s.update true a m
      = ({ s with isActive := true, direction := 1, cycles := s.cycles + 1 },
          [StepperCall.setMaxVelocity (s.maxVelocity * s.upVelocityMultiplier),
           StepperCall.setMaxAcceleration (s.maxAcceleration * s.upAccelMultiplier),
           StepperCall.enableClosedLoop,
           StepperCall.moveToAngle s.endAngle]
          ++ (if m = true then []
              else [StepperCall.setMaxVelocity (s.maxVelocity * s.upVelocityMultiplier),
                    StepperCall.setMaxAcceleration (s.maxAcceleration * s.upAccelMultiplier),
                    StepperCall.enableClosedLoop,
                    StepperCall.moveToAngle s.endAngle])) := by
  rw [update_running s a m hb hc,
    checkArrival_at_start_more { s with isActive := true } a hd ha hn]
  cases m <;> norm_num [startMovement, targetAngle, hc]

/-- One tick of a running controller with distinct endpoints: the moves to the
end angle it sends are the one of a counting arrival at the start angle and
the one of a restart heading for the end angle. -/
theorem tick_moves (u : MovingMotor) (a : ℚ) (m : Bool)
    (hb : u.stepperPtr = true) (hc : u.cycleComplete = false)
    (hne : u.startAngle ≠ u.endAngle) :
    (movesTo u.endAngle (u.update true a m).2 : Int) + u.cycles
      = (u.update true a m).1.cycles
        + (if restartsTowardEnd u a m = true then 1 else 0 : Nat) := by
  unfold restartsTowardEnd
  by_cases hd : 0 < u.direction
  · by_cases ha : |a - u.endAngle| < 0.5
    · rw [update_at_end_full u a m hb hc hd ha]
      cases m <;> simp [movesTo, hne, hb, hc]
    · have hfar : ¬ |a - u.targetAngle| < 0.5 := by
        unfold targetAngle; rw [if_pos hd]; exact ha
      rw [update_no_arrival u a m hb hc hfar]
      cases m
      · simp [movesTo, startMovement, targetAngle, hd, hb, hc]; ring
      · simp [movesTo]
  · by_cases ha : |a - u.startAngle| < 0.5
    · by_cases hn : u.cycles < u.maxCycles
      · rw [update_at_start_more_full u a m hb hc hd ha hn]
        cases m <;> simp [movesTo, hb, hc] <;> ring
      · rw [update_at_start_done u a m hb hc hd ha hn]
        cases m <;> simp [movesTo]
    · have hfar : ¬ |a - u.targetAngle| < 0.5 := by
        unfold targetAngle; rw [if_neg hd]; exact ha
      rw [update_no_arrival u a m hb hc hfar]
      cases m <;> simp [movesTo, startMovement, targetAngle, hd, hb, hc, hne]


/-- An `update` call never writes the endpoint angles. -/
theorem update_angles (s : MovingMotor) (activate : Bool) (a : ℚ) (m : Bool) :
    (s.update activate a m).1.startAngle = s.startAngle ∧
    (s.update activate a m).1.endAngle = s.endAngle := by
  rw [update_state]
  split_ifs
  · exact ⟨rfl, rfl⟩
  · unfold checkArrival
    split_ifs <;> exact ⟨rfl, rfl⟩
  · exact ⟨rfl, rfl⟩

/-- Ticks on a complete controller send no move and run no restart. -/
theorem runCalls_of_complete (target : ℚ) :
    ∀ (ticks : List (ℚ × Bool)) (u : MovingMotor), u.cycleComplete = true →
      movesTo target (runCalls u ticks) = 0 ∧ countRestartsTowardEnd u ticks = 0 := by
  intro ticks
  induction ticks with
  | nil => intro u _; exact ⟨rfl, rfl⟩
  | cons tick rest ih =>
      intro u hc
      obtain ⟨a, m⟩ := tick
      have hc1 : (u.update true a m).1.cycleComplete = true := by
        rw [update_cycleComplete, if_neg (fun h => by simp [hc] at h), hc]
      have hcalls : (u.update true a m).2 = [] := by
        by_cases hb : u.stepperPtr = false
        · rw [update_unbound u true a m hb]
        · rw [update_complete u a m (by simpa using hb) hc]
      obtain ⟨h1, h2⟩ := ih _ hc1
      simp only [runCalls, countRestartsTowardEnd]
      rw [hcalls, List.nil_append, h1, h2]
      simp [restartsTowardEnd, hc]

/-- Along a run of ticks of a bound controller with distinct endpoints, the
moves to the end angle number the cycles counted plus the restarts heading for
the end angle. -/
theorem run_moves :
    ∀ (ticks : List (ℚ × Bool)) (u : MovingMotor), u.stepperPtr = true →
      u.startAngle ≠ u.endAngle →
      (movesTo u.endAngle (runCalls u ticks) : Int) + u.cycles
        = (runTicks u ticks).cycles + countRestartsTowardEnd u ticks := by
  intro ticks
  induction ticks with
  | nil => intro u _ _; simp [runCalls, runTicks, countRestartsTowardEnd, movesTo]
  | cons tick rest ih =>
      intro u hb hne
      obtain ⟨a, m⟩ := tick
      by_cases hc : u.cycleComplete = false
      · have hang := update_angles u true a m
        have hb1 : (u.update true a m).1.stepperPtr = true := by
          rw [update_stepperPtr]; exact hb
        have hne1 : (u.update true a m).1.startAngle ≠ (u.update true a m).1.endAngle := by
          rw [hang.1, hang.2]; exact hne
        have hih := ih _ hb1 hne1
        rw [hang.2] at hih
        have htick := tick_moves u a m hb hc hne
        simp only [runCalls, runTicks, countRestartsTowardEnd, movesTo_append]
        push_cast at hih htick ⊢
        linarith
      · have hc1 : u.cycleComplete = true := by simpa using hc
        obtain ⟨h1, h2⟩ := runCalls_of_complete u.endAngle ((a, m) :: rest) u hc1
        obtain ⟨-, h3, -⟩ := runTicks_of_complete ((a, m) :: rest) u hc1
        rw [h1, h2, h3]
        simp

/-! ## Completion of a run -/

/-- C19 as stated fails in its last clause: the scenario controller
(`maxCycles = 2`, endpoints 0 and 90) driven through the ticks 90, 0, 90, 0,
90, 0 while the driver reports motion is complete after having been sent the
move to the end angle twice, not `maxCycles + 1 = 3` times. -/
theorem moving_driver_gets_fewer_moves :
    (demoMotor.stepperPtr = true ∧ demoMotor.cycleComplete = false ∧
      0 < demoMotor.direction ∧ demoMotor.cycles = 0 ∧ 0 ≤ demoMotor.maxCycles ∧
      0.5 < |demoMotor.endAngle - demoMotor.startAngle|) ∧
    (runTicks demoMotor demoTicks).cycleComplete = true ∧
    movesTo demoMotor.endAngle (runCalls demoMotor demoTicks) = 2 ∧
    demoMotor.maxCycles + 1 = 3 := by
  refine ⟨⟨rfl, rfl, ?_, rfl, ?_, ?_⟩, ?_, ?_, rfl⟩
  · norm_num [demoMotor, construct]
  · norm_num [demoMotor, construct]
  · norm_num [demoMotor, construct, lt_abs]
  · norm_num [demoTicks, runTicks, demoMotor, update, checkArrival, startMovement, construct]
  · norm_num [demoTicks, runCalls, movesTo, demoMotor, update, checkArrival, startMovement,
      construct]

/-- C19, amended: start from a bound, non-complete controller heading for the
end angle with `cycles = 0` and `maxCycles = n ≥ 0`, the endpoint angles more
than 0.5 apart, and make any sequence of `update(true)` calls, whatever angles
and motor states the driver reports.  Count the ticks that detect an arrival
at the start angle while heading for it.  Then the run is complete exactly
when `n + 1` such arrivals have been detected, never with fewer, and no
further one is detected afterwards; `cycles` is the number of such arrivals
capped at `n`; a further such arrival adds one to `cycles`, sets `direction`
to 1 and sends the move to `endAngle` when fewer than `n` have been detected,
and sets `cycleComplete` and sends only `stop` when `n` have.  When the run is
complete exactly `n + 1` arrivals at the end angle have been detected, and
before that their number is the number of start arrivals, plus one while the
controller is heading for the start angle.  The moves to `endAngle` sent
during the run number the start arrivals capped at `n`, plus the ticks whose
restart branch ran heading for the end angle (driver not moving): `n` at
completion with a driver that always reports motion, `n + 1` when the restart
branch ran once. -/
theorem completion_after_one_more_return (s : MovingMotor) (ticks : List (ℚ × Bool))
    (hb : s.stepperPtr = true) (hc : s.cycleComplete = false) (hd : 0 < s.direction)
    (h0 : s.cycles = 0) (hn : 0 ≤ s.maxCycles)
    (hapart : 0.5 < |s.endAngle - s.startAngle|) :
    ((runTicks s ticks).cycleComplete = true ↔
      (countStartArrivals s ticks : Int) = s.maxCycles + 1) ∧
    (countStartArrivals s ticks : Int) ≤ s.maxCycles + 1 ∧
    (runTicks s ticks).cycles = min (countStartArrivals s ticks : Int) s.maxCycles ∧
    ((runTicks s ticks).cycleComplete = true →
      (countEndArrivals s ticks : Int) = s.maxCycles + 1) ∧
    ((runTicks s ticks).cycleComplete = false →
      (0 < (runTicks s ticks).direction →
        countEndArrivals s ticks = countStartArrivals s ticks) ∧
      (¬ 0 < (runTicks s ticks).direction →
        countEndArrivals s ticks = countStartArrivals s ticks + 1)) ∧
    (∀ (currentAngle : ℚ) (motorState : Bool),
      detectsStartArrival (runTicks s ticks) currentAngle = true →
      ((countStartArrivals s ticks : Int) < s.maxCycles →
        ((runTicks s ticks).update true currentAngle motorState).1.cycles
          = (runTicks s ticks).cycles + 1 ∧
        ((runTicks s ticks).update true currentAngle motorState).1.direction = 1 ∧
        ((runTicks s ticks).update true currentAngle motorState).1.cycleComplete = false ∧
        StepperCall.moveToAngle (runTicks s ticks).endAngle
          ∈ ((runTicks s ticks).update true currentAngle motorState).2) ∧
      ((countStartArrivals s ticks : Int) = s.maxCycles →
        ((runTicks s ticks).update true currentAngle motorState).1.cycleComplete = true ∧
        ((runTicks s ticks).update true currentAngle motorState).2 = [StepperCall.stop])) ∧
    (movesTo s.endAngle (runCalls s ticks) : Int)
      = min (countStartArrivals s ticks : Int) s.maxCycles
        + countRestartsTowardEnd s ticks := by
  have hne : s.startAngle ≠ s.endAngle := by
    intro h
    rw [h, sub_self, abs_zero] at hapart
    norm_num at hapart
  have hmoves := run_moves ticks s hb hne
  rw [h0, add_zero] at hmoves
  have hp : pendingReturn s = 0 := by simp [pendingReturn, hd]
  obtain ⟨hm, hor⟩ := run_invariant ticks s hb hc (by omega) (by omega)
  rw [hp, h0] at hor
  rcases hor with ⟨h1, h2, h3, h4⟩ | ⟨h1, h2, h3, h4, h5⟩
  · have hS : (countStartArrivals s ticks : Int) = s.maxCycles + 1 := by omega
    have hmin : (runTicks s ticks).cycles
        = min (countStartArrivals s ticks : Int) s.maxCycles := by
      rw [h3, hS]; exact (min_eq_right (by omega)).symm
    refine ⟨⟨fun _ => hS, fun _ => h1⟩, by omega, hmin, fun _ => by omega, fun h => ?_,
      fun a m hdet => ?_, by rw [hmoves, hmin]⟩
    · rw [h1] at h; cases h
    · simp [detectsStartArrival, h1] at hdet
  · have hS : (countStartArrivals s ticks : Int) = (runTicks s ticks).cycles := by omega
    have hnot : (runTicks s ticks).cycleComplete = true → False := by
      intro h; rw [h1] at h; cases h
    have hmin : (runTicks s ticks).cycles
        = min (countStartArrivals s ticks : Int) s.maxCycles := by
      rw [hS]; exact (min_eq_left h4).symm
    refine ⟨⟨fun h => (hnot h).elim, fun h => by omega⟩, by omega, hmin,
      fun h => (hnot h).elim, fun _ => ⟨fun hdir => ?_, fun hdir => ?_⟩,
      fun a m hdet => ?_, by rw [hmoves, hmin]⟩
    · have : pendingReturn (runTicks s ticks) = 0 := by simp [pendingReturn, hdir]
      omega
    · have : pendingReturn (runTicks s ticks) = 1 := by simp [pendingReturn, hdir]
      omega
    · simp only [detectsStartArrival, decide_eq_true_eq] at hdet
      obtain ⟨-, -, hdir, ha⟩ := hdet
      constructor
      · intro hlt
        have hlt1 : (runTicks s ticks).cycles < (runTicks s ticks).maxCycles := by omega
        obtain ⟨e1, e2⟩ := update_at_start_more _ a m h2 h1 hdir ha hlt1
        refine ⟨by rw [e1], by rw [e1], by rw [e1]; exact h1, e2⟩
      · intro heq
        have hge : ¬ (runTicks s ticks).cycles < (runTicks s ticks).maxCycles := by omega
        rw [update_at_start_done _ a m h2 h1 hdir ha hge]
        exact ⟨rfl, rfl⟩

/-- Witness for C19, amended: the scenario controller (`maxCycles = 2`) driven
through a first tick at rest at the start angle and then the ticks 90, 0, 90,
0, 90, 0 is complete, having detected three arrivals at the start angle and
three at the end angle, and having been sent the move to the end angle three
times: twice by a counting arrival and once by the restart branch. -/
theorem completion_after_one_more_return_witness :
    (demoMotor.stepperPtr = true ∧ demoMotor.cycleComplete = false ∧
      0 < demoMotor.direction ∧ demoMotor.cycles = 0 ∧ 0 ≤ demoMotor.maxCycles ∧
      0.5 < |demoMotor.endAngle - demoMotor.startAngle|) ∧
    (runTicks demoMotor demoRestTicks).cycleComplete = true ∧
    (countStartArrivals demoMotor demoRestTicks : Int) = demoMotor.maxCycles + 1 ∧
    (countEndArrivals demoMotor demoRestTicks : Int) = demoMotor.maxCycles + 1 ∧
    (runTicks demoMotor demoRestTicks).cycles
      = min (countStartArrivals demoMotor demoRestTicks : Int) demoMotor.maxCycles ∧
    (movesTo demoMotor.endAngle (runCalls demoMotor demoRestTicks) : Int)
      = min (countStartArrivals demoMotor demoRestTicks : Int) demoMotor.maxCycles
        + countRestartsTowardEnd demoMotor demoRestTicks ∧
    movesTo demoMotor.endAngle (runCalls demoMotor demoRestTicks) = 3 := by
  have hd : 0 < demoMotor.direction := by norm_num [demoMotor, construct]
  have hn : 0 ≤ demoMotor.maxCycles := by norm_num [demoMotor, construct]
  have hapart : 0.5 < |demoMotor.endAngle - demoMotor.startAngle| := by
    norm_num [demoMotor, construct, lt_abs]
  have h := completion_after_one_more_return demoMotor demoRestTicks rfl rfl hd rfl hn hapart
  have hdone : (runTicks demoMotor demoRestTicks).cycleComplete = true := by
    norm_num [demoRestTicks, runTicks, demoMotor, update, checkArrival, startMovement,
      targetAngle, construct]
  have hmoves : movesTo demoMotor.endAngle (runCalls demoMotor demoRestTicks) = 3 := by
    norm_num [demoRestTicks, runCalls, movesTo, demoMotor, update, checkArrival,
      startMovement, targetAngle, construct]
  exact ⟨⟨rfl, rfl, hd, rfl, hn, hapart⟩, hdone, h.1.mp hdone, h.2.2.2.1 hdone, h.2.2.1,
    h.2.2.2.2.2.2, hmoves⟩

end Chorus
